/-
Verification of the OpenSCENARIO quality checker (quality_checker/quality_checker.py
and quality_checker/config.py), as a shallow embedding in Lean 4.

Modelling conventions:
* Python floats are idealised as exact numbers: file-borne values (positions,
  times, headings, dimensions, thresholds) are `ℚ`; derived kinematic series that
  need `sqrt`/`atan2` live in `ℝ`.
* A Python `dict` is an association list with first-insertion key order and
  last-assignment-wins values (`dictUpd`/`dictGet` below).
* `list(set(...))` materialises a set in unspecified order; we fix the
  first-occurrence order (`List.dedup`) and state the relevant theorems up to
  set equality or membership, never up to order of such lists.
* Exceptions raised by the checker's own code are modelled with `Except PyErr`;
  behaviour of external libraries (xmlschema verdicts, the scenariogeneration
  loader) enters as explicit oracle fields of the input model.
-/
import Mathlib

/-- Python's `in` on strings: substring containment. -/
def strContains (s pat : String) : Bool := decide (pat.data <:+: s.data)

/-- Python dict assignment `m[k] = v`: overwrite in place if the key exists
(a dict holds each key at most once, so replacing the first occurrence is
exact), otherwise append at the end (insertion order is preserved). -/
def dictUpd {β : Type} : List (String × β) → String → β → List (String × β)
  | [], k, v => [(k, v)]
  | p :: m, k, v => if p.1 = k then (k, v) :: m else p :: dictUpd m k v

/-- Python dict lookup `m[k]` (as an Option). -/
def dictGet {β : Type} (m : List (String × β)) (k : String) : Option β :=
  (m.find? (fun p => p.1 = k)).map Prod.snd

/-- Python `Counter(l).items()`: distinct values in first-seen order with
their multiplicities. -/
def counterItems {β : Type} [DecidableEq β] (l : List β) : List (β × Nat) :=
  l.dedup.map (fun v => (v, l.count v))

theorem dictGet_dictUpd {β : Type} (m : List (String × β)) (k : String) (v : β) (k2 : String) :
    dictGet (dictUpd m k v) k2 = if k2 = k then some v else dictGet m k2 := by
  induction m with
  | nil =>
    by_cases h : k2 = k
    · simp [dictUpd, dictGet, List.find?, h]
    · have h2 : ¬ (k = k2) := fun hh => h hh.symm
      simp [dictUpd, dictGet, List.find?, h, h2]
  | cons p m ih =>
    by_cases hpk : p.1 = k
    · by_cases h2 : k2 = k
      · subst h2
        simp [dictUpd, dictGet, List.find?, hpk]
      · have hpk2 : ¬ (p.1 = k2) := by rw [hpk]; intro h; exact h2 h.symm
        have hk2 : ¬ (k = k2) := fun h => h2 h.symm
        simp [dictUpd, dictGet, List.find?, hpk, h2, hpk2, hk2]
    · by_cases h2 : p.1 = k2
      · have : ¬ (k2 = k) := fun h => hpk (h2.trans h)
        simp [dictUpd, dictGet, List.find?, hpk, h2, this]
      · by_cases hk : k2 = k <;>
          simpa [dictUpd, dictGet, List.find?, hpk, h2, hk] using ih

theorem dictGet_foldl_dictUpd {β : Type} (l : List (String × β)) (m : List (String × β))
    (k : String) :
    dictGet (l.foldl (fun m p => dictUpd m p.1 p.2) m) k =
      ((l.reverse.find? (fun p => p.1 = k)).map Prod.snd).or (dictGet m k) := by
  induction l generalizing m with
  | nil => simp [Option.or]
  | cons a l ih =>
    simp only [List.foldl_cons, List.reverse_cons, List.find?_append]
    rw [ih, dictGet_dictUpd]
    rcases h : l.reverse.find? (fun p => decide (p.1 = k)) with _ | q
    · rw [h]
      by_cases ha : a.1 = k
      · have hk : k = a.1 := ha.symm
        rw [List.find?_cons_of_pos _ (by simpa using ha)]
        simp [hk, Option.or]
      · have hk : ¬ (k = a.1) := fun hh => ha hh.symm
        rw [List.find?_cons_of_neg _ (by simpa using ha)]
        simp [hk, Option.or]
    · rw [h]
      simp [Option.or]

theorem dictUpd_keys_mem {β : Type} (m : List (String × β)) (k : String) (v : β) (x : String)
    (hx : x ∈ (dictUpd m k v).map Prod.fst) : x ∈ m.map Prod.fst ∨ x = k := by
  induction m with
  | nil =>
    simp [dictUpd] at hx
    simp [hx]
  | cons p m ih =>
    by_cases hp : p.1 = k
    · simp only [dictUpd, if_pos hp, List.map_cons, List.mem_cons] at hx
      rcases hx with hx | hx
      · right; exact hx
      · left; simp [hx]
    · simp only [dictUpd, if_neg hp, List.map_cons, List.mem_cons] at hx
      rcases hx with hx | hx
      · left; simp [hx]
      · rcases ih hx with h1 | h1
        · left; simp [h1]
        · right; exact h1

theorem dictUpd_keys_nodup {β : Type} (m : List (String × β)) (k : String) (v : β)
    (hm : (m.map Prod.fst).Nodup) : ((dictUpd m k v).map Prod.fst).Nodup := by
  induction m with
  | nil => simp [dictUpd]
  | cons p m ih =>
    rw [List.map_cons, List.nodup_cons] at hm
    by_cases hp : p.1 = k
    · simp only [dictUpd, if_pos hp, List.map_cons]
      exact List.nodup_cons.mpr ⟨hp ▸ hm.1, hm.2⟩
    · simp only [dictUpd, if_neg hp, List.map_cons]
      refine List.nodup_cons.mpr ⟨?_, ih hm.2⟩
      intro hmem
      rcases dictUpd_keys_mem m k v p.1 hmem with h1 | h1
      · exact hm.1 h1
      · exact hp h1

/-- Keys of a Python dict built by repeated assignment stay unique. -/
theorem dict_keys_nodup {β : Type} (l : List (String × β)) (m : List (String × β))
    (hm : (m.map Prod.fst).Nodup) :
    ((l.foldl (fun m p => dictUpd m p.1 p.2) m).map Prod.fst).Nodup := by
  induction l generalizing m with
  | nil => simpa using hm
  | cons a l ih => exact ih _ (dictUpd_keys_nodup _ _ _ hm)

theorem dictGet_eq_some_of_mem {β : Type} (m : List (String × β)) (k : String) (v : β)
    (hnd : (m.map Prod.fst).Nodup) (hmem : (k, v) ∈ m) : dictGet m k = some v := by
  induction m with
  | nil => simp at hmem
  | cons p m ih =>
    rw [List.map_cons, List.nodup_cons] at hnd
    rcases List.mem_cons.mp hmem with h | h
    · rw [← h]
      unfold dictGet
      rw [List.find?_cons_of_pos _ (by simp)]
      rfl
    · have hpk : ¬ (p.1 = k) := by
        intro hp
        exact hnd.1 (hp ▸ List.mem_map.mpr ⟨(k, v), h, rfl⟩)
      unfold dictGet
      rw [List.find?_cons_of_neg _ (by simpa using hpk)]
      exact ih hnd.2 h

theorem mem_of_dictGet_eq_some {β : Type} (m : List (String × β)) (k : String) (v : β)
    (h : dictGet m k = some v) : (k, v) ∈ m := by
  induction m with
  | nil => simp [dictGet] at h
  | cons p m ih =>
    by_cases hpk : p.1 = k
    · unfold dictGet at h
      rw [List.find?_cons_of_pos _ (by simpa using hpk)] at h
      simp only [Option.map_some'] at h
      have : (k, v) = p := by
        cases p
        simp at hpk h
        simp [hpk, h]
      rw [this]
      exact List.mem_cons_self _ _
    · unfold dictGet at h
      rw [List.find?_cons_of_neg _ (by simpa using hpk)] at h
      exact List.mem_cons_of_mem _ (ih h)

/-- In a list with unique first components, a member is determined by its key. -/
theorem eq_of_mem_of_fst_eq {β : Type} (m : List (String × β)) (p q : String × β)
    (hnd : (m.map Prod.fst).Nodup) (hp : p ∈ m) (hq : q ∈ m) (hf : p.1 = q.1) : p = q := by
  have h1 : dictGet m p.1 = some p.2 := dictGet_eq_some_of_mem m p.1 p.2 hnd (by simpa using hp)
  have h2 : dictGet m q.1 = some q.2 := dictGet_eq_some_of_mem m q.1 q.2 hnd (by simpa using hq)
  rw [hf, h2] at h1
  exact Prod.ext_iff.mpr ⟨hf, (Option.some.inj h1).symm⟩

/- ===== Data model of the loaded scenario (the scenariogeneration view used by
the checker), with file-borne numbers as exact rationals. ===== -/

/-- One trajectory sample row of the dynamic-data frame: columns time, x, y, h. -/
structure Sample where
  time : ℚ
  x : ℚ
  y : ℚ
  h : ℚ
deriving DecidableEq

/-- `action.action.trajectory.shapes` of a trajectory event: the raw position
triples (x, y, h) and the time stamps. -/
structure TrajShape where
  positions : List (ℚ × ℚ × ℚ)
  time : List ℚ
deriving DecidableEq

/-- One entry of `event.action`.  Only the trajectory payload is ever read by
the checker (and only for events whose name matches the trajectory pattern). -/
structure EventAction where
  traj : TrajShape
deriving DecidableEq

structure Event where
  name : String
  action : List EventAction
deriving DecidableEq

structure Maneuver where
  events : List Event
deriving DecidableEq

/-- A maneuver group; `actors` is the list of actor entity names. -/
structure ManeuverGroup where
  actors : List String
  maneuvers : List Maneuver
deriving DecidableEq

structure Act where
  maneuvergroup : List ManeuverGroup
deriving DecidableEq

structure Story where
  acts : List Act
deriving DecidableEq

/-- An init action of the Init section, as the checker discriminates them by
`str(type(...))`: a TeleportAction (with a WorldPosition `(x, y)` or some other
position kind), an AbsoluteSpeedAction (whose speed is a float or, when an
unresolved parameter remains, a non-float), or anything else. -/
inductive InitAction where
  | teleport (worldPos : Option (ℚ × ℚ))
  | absoluteSpeed (speed : Option ℚ)
  | other
deriving DecidableEq

structure Storyboard where
  stories : List Story
  initactions : List (String × List InitAction)
deriving DecidableEq

/-- The scenario file header as exposed by `scenario.header.get_attributes()`. -/
structure Header where
  author : String
deriving DecidableEq

/-- A declared scenario object: its name, `entityobject.vehicle_type.name` when
the object is a typed vehicle (`none` models a missing `vehicle_type` attribute,
which raises AttributeError in the source), and its bounding-box
(length, width) when present. -/
structure ScenarioObject where
  name : String
  vehicleType : Option String
  boundingbox : Option (ℚ × ℚ)
deriving DecidableEq

structure Scenario where
  header : Header
  entities : List ScenarioObject
  storyboard : Storyboard
deriving DecidableEq

/- ===== config.py: the fixed thresholds ===== -/

namespace Config

/-- `ACCELERATION_ERROR_THRESHOLD = 9.8*2  # m/s^2` -/
def ACCELERATION_ERROR_THRESHOLD {α : Type} [LinearOrderedField α] : α := 9.8 * 2

/-- `ACCELERATION_WARNING_THRESHOLD = 9.8  # m/s^2` -/
def ACCELERATION_WARNING_THRESHOLD {α : Type} [LinearOrderedField α] : α := 9.8

/-- `SWIMANGLE_ERROR_THRESHOLD = 0.2  # radians` -/
def SWIMANGLE_ERROR_THRESHOLD {α : Type} [LinearOrderedField α] : α := 0.2

/-- `SWIMANGLE_WARNING_THRESHOLD = 0.1  # radians` -/
def SWIMANGLE_WARNING_THRESHOLD {α : Type} [LinearOrderedField α] : α := 0.1

end Config

/- ===== Structural checker: entity extraction and bookkeeping ===== -/

/-- `FileQualityChecker._get_entities`: map entity name to vehicle-type name.
The source fills a dict incrementally inside `try`; the first object without a
`vehicle_type` raises AttributeError and the `except` branch rebuilds the whole
dict with `None` values (`dict.fromkeys`), so the result is all-typed or
all-`none`. -/
def get_entities (objs : List ScenarioObject) : List (String × Option String) :=
  if objs.all (fun o => o.vehicleType.isSome) then
    objs.foldl (fun m o => dictUpd m o.name o.vehicleType) []
  else
    objs.foldl (fun m o => dictUpd m o.name none) []

/-- All maneuver groups of the storyboard in story/act iteration order. -/
def maneuverGroups (s : Scenario) : List ManeuverGroup :=
  s.storyboard.stories.flatMap (fun st => st.acts.flatMap (fun a => a.maneuvergroup))

/-- `FileQualityChecker._are_actors_defined`: actors of any maneuver group that
are not declared entities (actors containing an unresolved `$` placeholder are
skipped), plus every entity whose AbsoluteSpeedAction init speed is not a float;
deduplicated via `list(set(...))` (whose order Python leaves unspecified; we fix
first-occurrence order, and no theorem depends on the order of this list). -/
def are_actors_defined (s : Scenario) (entity_names : List String) : List String :=
  let perGroup := (maneuverGroups s).flatMap (fun mg =>
    let actors := (mg.actors.filter (fun a => strContains a "$" = false)).dedup
    if (actors.filter (fun a => a ∈ entity_names)).length ≠ actors.length then
      actors.filter (fun a => a ∉ entity_names)
    else [])
  let speedFlagged := entity_names.filter (fun e =>
    match dictGet s.storyboard.initactions e with
    | none => false
    | some acts => acts.any (fun ia =>
        match ia with
        | InitAction.absoluteSpeed none => true
        | _ => false))
  (perGroup ++ speedFlagged).dedup

/-- `FileQualityChecker._get_initial_positions`: per entity, the last
TeleportAction determines the init position — `(x, y)` for a WorldPosition,
the sentinel `('-','-')` (modelled as `none`) otherwise — and every
AbsoluteSpeedAction with float speed `< 1e-6` appends the entity to the parked
list. Entities without init actions (`KeyError`) are skipped. -/
def get_initial_positions (s : Scenario) (entity_names : List String) :
    List (String × Option (ℚ × ℚ)) × List String :=
  entity_names.foldl (fun acc e =>
    match dictGet s.storyboard.initactions e with
    | none => acc
    | some acts => acts.foldl (fun acc2 ia =>
        match ia with
        | InitAction.teleport (some p) => (dictUpd acc2.1 e (some p), acc2.2)
        | InitAction.teleport none => (dictUpd acc2.1 e none, acc2.2)
        | InitAction.absoluteSpeed (some v) =>
            if v < 1/1000000 then (acc2.1, acc2.2 ++ [e]) else acc2
        | InitAction.absoluteSpeed none => acc2
        | InitAction.other => acc2) acc) ([], [])

/-- The index-chasing loop of `_get_identical_initposition_entities`: starting
from `start`, repeatedly find the next later position of `item` in `values`
(`list.index` on the tail after the current index), `count` more times. -/
def collectIdxs {α : Type} [DecidableEq α] (values : List α) (item : α) :
    Nat → Nat → List Nat
  | start, 0 => [start]
  | start, k + 1 =>
      let next := start + 1 + List.indexOf item (values.drop (start + 1))
      start :: collectIdxs values item next k

/-- `FileQualityChecker._get_identical_initposition_entities`, exactly as
written: when duplicate position values exist, for each `Counter` item with
count > 1 it seeds the index chase with the item's index in the enumeration of
`Counter(...).items()` (NOT the item's first index in the values list) and then
collects `count - 1` further occurrence indices, mapping all of them to keys. -/
def get_identical_initposition_entities {α : Type} [DecidableEq α]
    (init_positions : List (String × α)) : List (List String) :=
  let values := init_positions.map Prod.snd
  let keys := init_positions.map Prod.fst
  if values.dedup.length ≠ values.length then
    let duplicates := (counterItems values).enum.filterMap (fun p =>
      if 1 < p.2.2 then some (p.1, p.2.1, p.2.2) else none)
    duplicates.map (fun t =>
      (collectIdxs values t.2.1 t.1 (t.2.2 - 1)).map (fun pos => keys.getD pos ""))
  else []

/- ===== Geometry: footprints and the intersection check =====

`_get_entities_bbox` builds, for every entity that has a concrete world init
position and a declared bounding box, the axis-aligned rectangle of the
declared length × width centred at the init position, and tracks the largest
minimum-enclosing-circle radius.  For an axis-aligned rectangle the minimum
enclosing circle is the circumcircle, radius `sqrt(length² + width²) / 2`.

The source indexes the polygon list with indices computed over the full
`init_positions` dict; the two agree exactly when every entity with an init
position has a world position and a bounding box (otherwise the source mispairs
or crashes in `cdist`).  We embed that aligned case, the only one the
intersection claims concern, carrying the entity name inside the footprint. -/

/-- An entity footprint: name, centre (the init position) and the declared
bounding-box dimensions. -/
structure Footprint where
  name : String
  cx : ℚ
  cy : ℚ
  length : ℚ
  width : ℚ
deriving DecidableEq

/-- `_get_entities_bbox` in the aligned case: one footprint per entity with a
world init position and a bounding box, in scenario-object order. -/
def get_entities_bbox (s : Scenario) (init_positions : List (String × Option (ℚ × ℚ))) :
    List Footprint :=
  s.entities.filterMap (fun so =>
    match dictGet init_positions so.name, so.boundingbox with
    | some (some p), some d => some ⟨so.name, p.1, p.2.1, d.1, d.2⟩
    | _, _ => none)

/-- Square of the minimum-enclosing-circle radius of a footprint's rectangle
(`shapely.minimum_bounding_radius`, which for an axis-aligned rectangle is half
the diagonal). -/
def radiusSq (f : Footprint) : ℚ := (f.length ^ 2 + f.width ^ 2) / 4

/-- The radius itself, in `ℝ`. -/
noncomputable def boundingRadius (f : Footprint) : ℝ :=
  Real.sqrt ((f.length : ℝ) ^ 2 + (f.width : ℝ) ^ 2) / 2

/-- Square of the centre distance of two footprints (centres are the init
positions the source feeds to `scipy.spatial.distance.cdist`). -/
def distSq (a b : Footprint) : ℚ := (a.cx - b.cx) ^ 2 + (a.cy - b.cy) ^ 2

/-- The Euclidean centre distance, in `ℝ`. -/
noncomputable def centerDist (a b : Footprint) : ℝ :=
  Real.sqrt (((a.cx : ℝ) - b.cx) ^ 2 + ((a.cy : ℝ) - b.cy) ^ 2)

/-- `max_entity_radius` squared: running maximum of the footprint radii.  The
source starts the maximum at `-inf`; since every radius is nonnegative,
starting at `0` is equivalent whenever at least one footprint exists (and the
value is only used under the `len(polygons) > 1` guard). -/
def maxEntityRadiusSq (fps : List Footprint) : ℚ := (fps.map radiusSq).foldr max 0

/-- `max_entity_radius` itself, in `ℝ`. -/
noncomputable def maxEntityRadius (fps : List Footprint) : ℝ :=
  (fps.map boundingRadius).foldr max 0

/-- The closed rectangle a footprint's shapely polygon covers (the convex hull
of its four corners: boundary and interior). -/
def rectSet (f : Footprint) : Set (ℝ × ℝ) :=
  {p | |p.1 - (f.cx : ℝ)| ≤ (f.length : ℝ) / 2 ∧ |p.2 - (f.cy : ℝ)| ≤ (f.width : ℝ) / 2}

/-- Decidable test for non-empty intersection of two footprint rectangles
(shapely's `not intersection.is_empty` on the two polygons; the equivalence
with `rectSet` overlap is `rectOverlap_iff_nonempty` below). -/
def rectOverlap (a b : Footprint) : Prop :=
  |a.cx - b.cx| ≤ (a.length + b.length) / 2 ∧ |a.cy - b.cy| ≤ (a.width + b.width) / 2

instance (a b : Footprint) : Decidable (rectOverlap a b) := by
  unfold rectOverlap
  infer_instance

/-- `FileQualityChecker._get_intersecting_entities` with `filter_by_radius=True`
in the aligned case.  The prefilter keeps the strictly-upper-triangular index
pairs whose centre distance is strictly between the numeric-noise floor `1e-6`
and `2 * max_entity_radius` (stated on squares: `d < e ↔ d² < e²` for
nonnegative `d, e`), and only those pairs reach the exact polygon test. -/
def get_intersecting_entities (fps : List Footprint) : List (String × String) :=
  if 1 < fps.length then
    fps.enum.flatMap (fun a => fps.enum.filterMap (fun b =>
      if a.1 < b.1 ∧ 1 / 10 ^ 12 < distSq a.2 b.2 ∧
          distSq a.2 b.2 < 4 * maxEntityRadiusSq fps then
        if rectOverlap a.2 b.2 then some (a.2.name, b.2.name) else none
      else none))
  else []

/- ===== Add/Remove accounting ===== -/

/-- All `(event name, actor)` pairs in traversal order (per maneuver group the
source loops maneuvers, events, then all actors of the group). -/
def eventActorPairs (s : Scenario) : List (String × String) :=
  (maneuverGroups s).flatMap (fun mg =>
    mg.maneuvers.flatMap (fun m =>
      m.events.flatMap (fun e =>
        mg.actors.map (fun a => (e.name, a)))))

/-- `FileQualityChecker._get_added_and_removed_entities`: actors (without `$`
placeholders) of events whose name contains `Add_`, resp. contains `Remove_`
but not `Add_` (the source's `elif`), deduplicated via `list(set(...))`. -/
def get_added_and_removed_entities (s : Scenario) : List String × List String :=
  let pairs := eventActorPairs s
  (((pairs.filterMap (fun p =>
      if strContains p.2 "$" = false ∧ strContains p.1 "Add_" then some p.2
      else none)).dedup),
   ((pairs.filterMap (fun p =>
      if strContains p.2 "$" = false ∧ strContains p.1 "Add_" = false ∧
          strContains p.1 "Remove_" then some p.2
      else none)).dedup))

/-- `FileQualityChecker._check_in_out_entities`: when the count balance
`len(added) + len(init) - len(removed) - len(parked)` is nonzero, return
`set(added + init_keys + removed) - set(added + init_keys)` (materialised in
first-occurrence order; Python's set order is unspecified and the theorems
compare as finsets), otherwise the empty list. -/
def check_in_out_entities {α : Type} (init_positions : List (String × α))
    (parked_entities added_entities removed_entities : List String) : List String :=
  if (added_entities.length : ℤ) + init_positions.length
      - removed_entities.length - parked_entities.length ≠ 0 then
    let all_entities := added_entities ++ init_positions.map Prod.fst ++ removed_entities
    let in_entities := added_entities ++ init_positions.map Prod.fst
    all_entities.dedup.filter (fun e => e ∉ in_entities)
  else []

/- ===== check_file_errors and entity counts ===== -/

/-- The four file-error lists, in the order the source returns them. -/
structure FileErrors where
  missing_entity_definitions : List String
  identical_initposition_entities : List (List String)
  intersecting_entities : List (String × String)
  missing_in : List String
deriving DecidableEq

/-- `FileQualityChecker.check_file_errors`. -/
def check_file_errors (s : Scenario) : List (String × Option String) × FileErrors :=
  let entities := get_entities s.entities
  let entity_names := entities.map Prod.fst
  let missing_entity_definitions := are_actors_defined s entity_names
  let ip := get_initial_positions s entity_names
  let identical := get_identical_initposition_entities ip.1
  let intersecting := get_intersecting_entities (get_entities_bbox s ip.1)
  let ar := get_added_and_removed_entities s
  let missing_in := check_in_out_entities ip.1 ip.2 ar.1 ar.2
  (entities, ⟨missing_entity_definitions, identical, intersecting, missing_in⟩)

/-- `road_user_counts` after `__init__` lines 79-80: `Counter(entities.values())`
plus the entry under key `'total'`, which the source sets to `str(len(entities))`
(the decimal string of the dict's size).  The `total` field models the value at
key `'total'`. -/
structure RoadUserCounts where
  typeCounts : List (Option String × Nat)
  total : Option String
deriving DecidableEq

def roadUserCounts (entities : List (String × Option String)) : RoadUserCounts :=
  ⟨counterItems (entities.map Prod.snd), some (Nat.repr entities.length)⟩

/- ===== Kinematics derivation (_build_dynamic_data_df /
_calculate_acceleration_swimangle) =====

The pandas frame holds `n` rows; each derived column is a series of `n - 1`
(speed, movement angle, swim angle) resp. `n - 2` (acceleration) defined
entries, padded to length `n` with NaN by index alignment.  Every threshold
comparison with NaN is False in numpy, so classification sees exactly the
defined entries; we embed the columns as the lists of defined entries. -/

/-- `np.arctan2 y x`: the argument of the complex number `x + y*i`, in
`(-π, π]`, with `atan2 0 0 = 0`. -/
noncomputable def atan2 (y x : ℝ) : ℝ := Complex.arg ⟨x, y⟩

/-- Python float modulo `a % b` (the result has the divisor's sign; for
`b > 0` it lies in `[0, b)`), as pandas `.mod` applies it elementwise. -/
noncomputable def fmod (a b : ℝ) : ℝ := a - b * ⌊a / b⌋

/-- `FileQualityChecker._build_dynamic_data_df`: rows `(time, x, y, h)` from
the parallel position and time lists (pandas requires equal lengths; `zipWith`
truncates, and no claim exercises a mismatch). -/
def build_dynamic_data_df (positions : List (ℚ × ℚ × ℚ)) (times : List ℚ) : List Sample :=
  List.zipWith (fun t p => ⟨t, p.1, p.2.1, p.2.2⟩) times positions

/-- `t_change`: first differences of the time column (step = 1 sample). -/
noncomputable def tChange (df : List Sample) : List ℝ :=
  List.zipWith (fun b a => (b.time : ℝ) - (a.time : ℝ)) df.tail df

/-- The speed column: `sqrt(Δx² + Δy²) / Δt` per step. -/
noncomputable def speedList (df : List Sample) : List ℝ :=
  List.zipWith (fun b a =>
    Real.sqrt (((b.x : ℝ) - (a.x : ℝ)) ^ 2 + ((b.y : ℝ) - (a.y : ℝ)) ^ 2) /
      ((b.time : ℝ) - (a.time : ℝ))) df.tail df

/-- The acceleration column: first differences of speed divided by the same
`t_change` (entry `i` uses `Δt` of step `i`). -/
noncomputable def accelerationList (df : List Sample) : List ℝ :=
  List.zipWith (fun p dt => (p.1 - p.2) / dt)
    ((speedList df).tail.zip (speedList df)) (tChange df)

/-- The movement-angle column: `atan2(Δy, Δx)` pushed into `[0, 2π)` by
pandas `.mod(2π)`. -/
noncomputable def movementAngleList (df : List Sample) : List ℝ :=
  List.zipWith (fun b a =>
    fmod (atan2 ((b.y : ℝ) - (a.y : ℝ)) ((b.x : ℝ) - (a.x : ℝ))) (2 * Real.pi)) df.tail df

/-- The swim-angle column: row heading minus the movement angle of the step
starting at that row, with no further normalisation. -/
noncomputable def swimangleList (df : List Sample) : List ℝ :=
  List.zipWith (fun s ma => (s.h : ℝ) - ma) df (movementAngleList df)

/- ===== check_dynamic_errors ===== -/

/-- The four dynamic-error lists, in the order the source returns them. -/
structure DynErrors where
  acceleration_errors : List String
  acceleration_warnings : List String
  swimangle_errors : List String
  swimangle_warnings : List String
deriving DecidableEq

/-- The loop body of `check_dynamic_errors` for an entity whose name contains
`'ego'` (source lines 262-271): error/warning on acceleration, then on swim
angle, each an `if`/`elif` on `np.any(np.abs(...) > threshold)`. -/
def dynStepEgo {α : Type} [LinearOrderedField α] (acc : DynErrors) (name : String)
    (accS swimS : List α) : DynErrors :=
  let acc1 :=
    if accS.any (fun v => decide (|v| > Config.ACCELERATION_ERROR_THRESHOLD)) then
      { acc with acceleration_errors := acc.acceleration_errors ++ [name] }
    else if accS.any (fun v => decide (|v| > Config.ACCELERATION_WARNING_THRESHOLD)) then
      { acc with acceleration_warnings := acc.acceleration_warnings ++ [name] }
    else acc
  if swimS.any (fun v => decide (|v| > Config.SWIMANGLE_ERROR_THRESHOLD)) then
    { acc1 with swimangle_errors := acc1.swimangle_errors ++ [name] }
  else if swimS.any (fun v => decide (|v| > Config.SWIMANGLE_WARNING_THRESHOLD)) then
    { acc1 with swimangle_warnings := acc1.swimangle_warnings ++ [name] }
  else acc1

/-- The loop body for any other entity (source lines 272-280); textually the
same checks as the ego branch. -/
def dynStepOther {α : Type} [LinearOrderedField α] (acc : DynErrors) (name : String)
    (accS swimS : List α) : DynErrors :=
  let acc1 :=
    if accS.any (fun v => decide (|v| > Config.ACCELERATION_ERROR_THRESHOLD)) then
      { acc with acceleration_errors := acc.acceleration_errors ++ [name] }
    else if accS.any (fun v => decide (|v| > Config.ACCELERATION_WARNING_THRESHOLD)) then
      { acc with acceleration_warnings := acc.acceleration_warnings ++ [name] }
    else acc
  if swimS.any (fun v => decide (|v| > Config.SWIMANGLE_ERROR_THRESHOLD)) then
    { acc1 with swimangle_errors := acc1.swimangle_errors ++ [name] }
  else if swimS.any (fun v => decide (|v| > Config.SWIMANGLE_WARNING_THRESHOLD)) then
    { acc1 with swimangle_warnings := acc1.swimangle_warnings ++ [name] }
  else acc1

/-- One iteration of the `check_dynamic_errors` loop: branch on
`'ego' in entity_name`. -/
def dynStep {α : Type} [LinearOrderedField α] (acc : DynErrors)
    (e : String × List α × List α) : DynErrors :=
  if strContains e.1 "ego" then dynStepEgo acc e.1 e.2.1 e.2.2
  else dynStepOther acc e.1 e.2.1 e.2.2

/-- The classification part of `check_dynamic_errors`, applied to each entity's
derived acceleration and swim-angle series in dict order. -/
def checkDynamicCore {α : Type} [LinearOrderedField α]
    (dd : List (String × List α × List α)) : DynErrors :=
  dd.foldl dynStep ⟨[], [], [], []⟩

/- ===== _get_dynamic_data ===== -/

/-- The `(actor, trajectory shape)` assignments `_get_dynamic_data` performs, in
story/act/maneuver-group/maneuver/event/action iteration order.  Only the FIRST
actor of each maneuver group is used (`actors[0]`; a group with an empty actor
list would raise IndexError in the source and is skipped here — the theorems
about this function assume every group has an actor).  Only events whose name
contains `'Trajectory_event_'` contribute. -/
def trajAssignments (s : Scenario) : List (String × TrajShape) :=
  (maneuverGroups s).flatMap (fun mg =>
    match mg.actors with
    | [] => []
    | actor :: _ =>
      mg.maneuvers.flatMap (fun m =>
        m.events.flatMap (fun e =>
          if strContains e.name "Trajectory_event_" then
            e.action.map (fun a => (actor, a.traj))
          else [])))

/-- `FileQualityChecker._get_dynamic_data`: the dict built by those
assignments (later assignments to the same actor overwrite earlier ones). -/
def get_dynamic_data (s : Scenario) : List (String × TrajShape) :=
  (trajAssignments s).foldl (fun m p => dictUpd m p.1 p.2) []

/-- `FileQualityChecker.check_dynamic_errors`: derive each entity's
acceleration and swim-angle series and classify them against the thresholds
(the `len(dynamic_data) == 0` early return coincides with folding over the
empty list). -/
noncomputable def check_dynamic_errors (s : Scenario) : DynErrors :=
  checkDynamicCore ((get_dynamic_data s).map (fun p =>
    (p.1, accelerationList (build_dynamic_data_df p.2.positions p.2.time),
      swimangleList (build_dynamic_data_df p.2.positions p.2.time))))

/- ===== The validation pipeline (FileQualityChecker.__init__) ===== -/

/-- Python exceptions the checker's own code can raise in the schema stage. -/
inductive PyErr where
  | indexError
  | keyError
  | valueError
deriving DecidableEq

/-- An XML element as the pipeline reads it: only its attributes matter. -/
structure XMLElement where
  attrs : List (String × String)
deriving DecidableEq

/-- The parsed XML tree of the input file, restricted to the accesses the
pipeline performs: `root[0]` (first child) and `root.find("FileHeader")`. -/
structure XMLTree where
  children : List XMLElement
  fileHeader : Option XMLElement
deriving DecidableEq

/-- One input file together with the verdicts of the external collaborators:
whether `xml.sax` parses it, what `xmlschema.is_valid` would answer, and what
`xosc.ParseOpenScenario` yields on the parameter-substituted copy (`none`
models the loader failure the source checks via `if self.scenario is None`;
loader exceptions are external behaviour outside this model). -/
structure XFile where
  xmlLoadable : Bool
  tree : XMLTree
  xsdVerdict : Bool
  loadResult : Option Scenario

/-- Attribute lookup on an element (`elem.attrib[k]` / `elem.get(k)`). -/
def lookupAttr (e : XMLElement) (k : String) : Option String := dictGet e.attrs k

def charDigit (c : Char) : Option Nat :=
  if 48 ≤ c.toNat ∧ c.toNat ≤ 57 then some (c.toNat - 48) else none

def parseNatDigits : List Char → Nat → Option Nat
  | [], acc => some acc
  | c :: cs, acc =>
    match charDigit c with
    | some d => parseNatDigits cs (acc * 10 + d)
    | none => none

/-- Python's `int(s)` on a decimal string: `some` for an optionally signed
digit string, `none` (=> ValueError) otherwise.  (Python also tolerates
surrounding whitespace and underscores; nothing here depends on those.) -/
def pyInt (s : String) : Option ℤ :=
  match s.data with
  | [] => none
  | '-' :: cs =>
    match cs with
    | [] => none
    | _ => (parseNatDigits cs 0).map (fun n => -(n : ℤ))
  | cs => (parseNatDigits cs 0).map (fun n => (n : ℤ))

/-- `FileQualityChecker.is_xsd_valid`: read `revMajor`/`revMinor` from the
root's first child (IndexError when the root has no children, KeyError when an
attribute is missing), build the version string, treat `int(revMajor) >= 2`
(ValueError when not an integer literal; `pyInt` above stands in for
Python's `int`) or a missing schema file as not-valid, and otherwise return the
external validator's verdict.  `schemaFiles` is the set of file names present
in the schema directory. -/
def is_xsd_valid (tree : XMLTree) (schemaFiles : List String) (xsdVerdict : Bool) :
    Except PyErr (Bool × String) :=
  match tree.children.head? with
  | none => Except.error PyErr.indexError
  | some el =>
    match lookupAttr el "revMajor" with
    | none => Except.error PyErr.keyError
    | some revMajor =>
      match lookupAttr el "revMinor" with
      | none => Except.error PyErr.keyError
      | some revMinor =>
        match pyInt revMajor with
        | none => Except.error PyErr.valueError
        | some majInt =>
          if majInt < 2 then
            if ("OpenSCENARIO_" ++ (revMajor ++ "-" ++ revMinor) ++ ".xsd") ∈ schemaFiles then
              Except.ok (xsdVerdict, revMajor ++ "-" ++ revMinor)
            else Except.ok (false, revMajor ++ "-" ++ revMinor)
          else Except.ok (false, revMajor ++ "-" ++ revMinor)

/-- `FileQualityChecker.get_date`: the `date` attribute of the `FileHeader`
element when present (the source additionally reparses it with
`datetime.fromisoformat` and reformats to DD.MM.YYYY; that reformatting is
value-level string processing no claim touches, so the raw attribute stands
for the formatted value here). -/
def get_date (tree : XMLTree) : Option String :=
  tree.fileHeader.bind (fun h => lookupAttr h "date")

/-- The full result record of `FileQualityChecker.__init__` (the fields set in
lines 40-48 and filled stage by stage). -/
structure CheckerResult where
  xml_loadable : Bool
  xsd_valid : Bool
  version : Option String
  author : Option String
  date : Option String
  scenario : Option Scenario
  road_user_counts : RoadUserCounts
  file_errors : FileErrors
  dynamic_errors : Option DynErrors

/-- The all-defaults record of lines 40-48: every downstream field empty/null. -/
def defaultResult : CheckerResult :=
  ⟨false, false, none, none, none, none, ⟨[], none⟩, ⟨[], [], [], []⟩, none⟩

/-- `FileQualityChecker.__init__` as a function from the input-file model to
either a result record or the Python exception that escapes the constructor. -/
noncomputable def fileQualityChecker (f : XFile) (schemaFiles : List String) :
    Except PyErr CheckerResult :=
  if f.xmlLoadable = false then Except.ok defaultResult
  else
    match is_xsd_valid f.tree schemaFiles f.xsdVerdict with
    | Except.error e => Except.error e
    | Except.ok (valid, ver) =>
      if valid = false then
        Except.ok { defaultResult with xml_loadable := true, version := some ver }
      else
        match f.loadResult with
        | none =>
          Except.ok { defaultResult with
            xml_loadable := true, xsd_valid := true, version := some ver }
        | some sc =>
          Except.ok
            { xml_loadable := true
              xsd_valid := true
              version := some ver
              author := some sc.header.author
              date := get_date f.tree
              scenario := some sc
              road_user_counts := roadUserCounts (check_file_errors sc).1
              file_errors := (check_file_errors sc).2
              dynamic_errors := some (check_dynamic_errors sc) }

/- ===== load_openscenario / _clean_up_temp_file (scratch-file lifecycle) =====

The file-system state is the list of existing scratch-file paths.
`_process_xosc_file` creates the temp file (the substituted copy) and returns
its path; `xosc.ParseOpenScenario` runs inside `try`, and the `finally` block
deletes the temp file on both exit paths (normal return and raised exception).
The parse outcome is an oracle: `Except.ok` carries what `ParseOpenScenario`
returns (`none` for a loader that signals failure by returning nothing),
`Except.error` a raised exception that the method re-raises after cleanup. -/

/-- `_process_xosc_file`: create the scratch copy. -/
def process_xosc_file (st : List String) (tmpName : String) : List String × String :=
  (st ++ [tmpName], tmpName)

/-- `_clean_up_temp_file`: delete the file if it exists. -/
def clean_up_temp_file (st : List String) (p : String) : List String :=
  if p ∈ st then st.filter (fun q => q ≠ p) else st

/-- `load_openscenario`: create the scratch copy, attempt the parse, and clean
the scratch copy up on every exit path (`try`/`finally`). -/
def load_openscenario (st : List String) (tmpName : String)
    (parseOutcome : Except PyErr (Option Scenario)) :
    Except PyErr (Option Scenario) × List String :=
  let created := process_xosc_file st tmpName
  match parseOutcome with
  | Except.ok osc => (Except.ok osc, clean_up_temp_file created.1 created.2)
  | Except.error e => (Except.error e, clean_up_temp_file created.1 created.2)

/- ===================== Claims ===================== -/

/-- C9: the scratch file created by the model-load stage is removed on every
exit path of `load_openscenario` — whether the parse returns (any value) or
raises — so after the stage no scratch file persists: the file-system state is
exactly what it was before the stage. -/
theorem load_openscenario_cleans_scratch_file (st : List String) (tmpName : String)
    (parseOutcome : Except PyErr (Option Scenario)) :
    tmpName ∉ (load_openscenario st tmpName parseOutcome).2 ∧
    (tmpName ∉ st → (load_openscenario st tmpName parseOutcome).2 = st) := by
  have hmem : tmpName ∈ st ++ [tmpName] := by simp
  have h2 : clean_up_temp_file (st ++ [tmpName]) tmpName =
      (st ++ [tmpName]).filter (fun q => q ≠ tmpName) := by
    simp [clean_up_temp_file, hmem]
  have hnotin : tmpName ∉ (st ++ [tmpName]).filter (fun q => q ≠ tmpName) := by
    intro hx
    have := List.of_mem_filter hx
    simp at this
  have hst : tmpName ∉ st → (st ++ [tmpName]).filter (fun q => q ≠ tmpName) = st := by
    intro hfresh
    rw [List.filter_append]
    simp
    intro a ha heq
    exact hfresh (heq ▸ ha)
  cases parseOutcome with
  | ok osc =>
    refine ⟨?_, fun hfresh => ?_⟩
    · have := hnotin
      simp only [load_openscenario, process_xosc_file] at this ⊢
      rw [h2]
      exact this
    · have := hst hfresh
      simp only [load_openscenario, process_xosc_file] at this ⊢
      rw [h2]
      exact this
  | error e =>
    refine ⟨?_, fun hfresh => ?_⟩
    · have := hnotin
      simp only [load_openscenario, process_xosc_file] at this ⊢
      rw [h2]
      exact this
    · have := hst hfresh
      simp only [load_openscenario, process_xosc_file] at this ⊢
      rw [h2]
      exact this

/-- C9 witness: a concrete run — the parse raises, yet the scratch file `"tmp"`
is gone and the directory is back to its prior contents. -/
theorem load_openscenario_cleans_scratch_file_witness :
    "tmp" ∉ (load_openscenario ["keep"] "tmp" (Except.error PyErr.valueError)).2 ∧
    (load_openscenario ["keep"] "tmp" (Except.error PyErr.valueError)).2 = ["keep"] :=
  ⟨(load_openscenario_cleans_scratch_file ["keep"] "tmp" (Except.error PyErr.valueError)).1,
   (load_openscenario_cleans_scratch_file ["keep"] "tmp"
      (Except.error PyErr.valueError)).2 (by decide)⟩

/-- C2 (amended): the unbalanced list equals, as a set,
`(added ∪ initialized ∪ removed) − (added ∪ initialized)` whenever the count
balance `|added| + |initialized| − |removed| − |parked|` is nonzero, and is
empty when the balance is zero.  (The original claim — that the list always
equals the set difference and is empty exactly when the balance is zero — fails:
see the counterexample below.) -/
theorem check_in_out_entities_spec {α : Type} (ips : List (String × α))
    (parked added removed : List String) :
    (check_in_out_entities ips parked added removed).toFinset =
      if (added.length : ℤ) + ips.length - removed.length - parked.length ≠ 0 then
        (added.toFinset ∪ (ips.map Prod.fst).toFinset ∪ removed.toFinset) \
          (added.toFinset ∪ (ips.map Prod.fst).toFinset)
      else ∅ := by
  unfold check_in_out_entities
  split
  · ext x
    simp [List.mem_filter, List.mem_dedup, List.mem_append, Finset.mem_sdiff,
      Finset.mem_union, List.mem_toFinset]
  · simp

/-- C2 counterexample: with no initialized, parked entities, one added entity
`"A"` and one removed entity `"B"`, the balance is zero so the code returns the
empty list, yet the claimed set difference `(added ∪ initialized ∪ removed) −
(added ∪ initialized)` contains `"B"` — so the returned list does not equal the
set difference, refuting the claim as stated. -/
theorem check_in_out_entities_counterexample :
    check_in_out_entities ([] : List (String × ℚ × ℚ)) [] ["A"] ["B"] = [] ∧
    "B" ∈ ((["A"].toFinset ∪ (([] : List (String × ℚ × ℚ)).map Prod.fst).toFinset ∪
        ["B"].toFinset) \ (["A"].toFinset ∪ (([] : List (String × ℚ × ℚ)).map
        Prod.fst).toFinset)) ∧
    ((1 : ℤ) + 0 - 1 - 0 = 0) := by
  refine ⟨by decide, by decide, by decide⟩

/-- C8 (code bug): with two duplicate-position groups `e1,e2` at `(0,0)` and
`e3,e4` at `(1,1)`, the code seeds the second group's index chase with the
item's index in the `Counter` enumeration (1) instead of the value's first
index in the position list (2), so it reports the cluster `["e2","e3"]` — two
entities whose positions differ — instead of `["e3","e4"]`. -/
theorem identical_initposition_entities_failing_input :
    get_identical_initposition_entities
        [("e1", ((0 : ℚ), (0 : ℚ))), ("e2", (0, 0)), ("e3", (1, 1)), ("e4", (1, 1))] =
      [["e1", "e2"], ["e2", "e3"]] ∧
    dictGet [("e1", ((0 : ℚ), (0 : ℚ))), ("e2", (0, 0)), ("e3", (1, 1)), ("e4", (1, 1))] "e2" ≠
      dictGet [("e1", ((0 : ℚ), (0 : ℚ))), ("e2", (0, 0)), ("e3", (1, 1)), ("e4", (1, 1))] "e3" := by
  refine ⟨by decide, by decide⟩

/-- The entities `_get_dynamic_data` assigns data to are always heads of some
maneuver group's actor list. -/
theorem trajAssignments_fst_is_first_actor (s : Scenario) (p : String × TrajShape)
    (hp : p ∈ trajAssignments s) :
    p.1 ∈ (maneuverGroups s).filterMap (fun mg => mg.actors.head?) := by
  unfold trajAssignments at hp
  rw [List.mem_flatMap] at hp
  rcases hp with ⟨mg, hmg, hin⟩
  rcases hactors : mg.actors with _ | ⟨actor, rest⟩
  · rw [hactors] at hin
    simp at hin
  · rw [hactors] at hin
    rw [List.mem_flatMap] at hin
    rcases hin with ⟨m, _, hin⟩
    rw [List.mem_flatMap] at hin
    rcases hin with ⟨e, _, hin⟩
    have hfst : p.1 = actor := by
      by_cases hname : strContains e.name "Trajectory_event_"
      · rw [if_pos hname] at hin
        rcases List.mem_map.mp hin with ⟨a, _, hpa⟩
        rw [← hpa]
      · rw [if_neg (by simpa using hname)] at hin
        simp at hin
    rw [List.mem_filterMap]
    exact ⟨mg, hmg, by rw [hactors, hfst]; rfl⟩

/-- C10: for every loaded model, trajectory data is attributed only to the
first actor of each maneuver group — an entity that is never the first actor of
a group gets no data — and when several `Trajectory_event_` events (or several
actions of such events) target the same actor, the dict entry is the LAST
assignment in story/act/maneuver-group/maneuver/event/action iteration order:
earlier ones are silently overwritten. -/
theorem get_dynamic_data_last_event_wins (s : Scenario) (e : String) :
    dictGet (get_dynamic_data s) e =
      (((trajAssignments s).filter (fun p => p.1 = e)).getLast?).map Prod.snd ∧
    (e ∉ (maneuverGroups s).filterMap (fun mg => mg.actors.head?) →
      dictGet (get_dynamic_data s) e = none) := by
  have h1 : dictGet (get_dynamic_data s) e =
      (((trajAssignments s).filter (fun p => p.1 = e)).getLast?).map Prod.snd := by
    unfold get_dynamic_data
    rw [dictGet_foldl_dictUpd, List.filter_getLast?]
    rcases hfind : (trajAssignments s).reverse.find? (fun p => decide (p.1 = e)) with _ | q <;>
      rw [hfind] <;> rfl
  refine ⟨h1, fun hnot => ?_⟩
  rw [h1]
  have hfil : (trajAssignments s).filter (fun p => p.1 = e) = [] := by
    rw [List.filter_eq_nil_iff]
    intro p hp
    simp
    intro heq
    exact hnot (heq ▸ trajAssignments_fst_is_first_actor s p hp)
  rw [hfil]
  rfl

/-- How one loop iteration changes the acceleration-error list. -/
theorem dynStep_acceleration_errors {α : Type} [LinearOrderedField α] (acc : DynErrors)
    (e : String × List α × List α) :
    (dynStep acc e).acceleration_errors =
      if e.2.1.any (fun v => decide (|v| > Config.ACCELERATION_ERROR_THRESHOLD)) then
        acc.acceleration_errors ++ [e.1]
      else acc.acceleration_errors := by
  unfold dynStep dynStepEgo dynStepOther
  split <;> split <;> (try split) <;> (try split) <;> (try split) <;> rfl

/-- How one loop iteration changes the acceleration-warning list: appended only
when the error check failed and the warning check fires (`if`/`elif`). -/
theorem dynStep_acceleration_warnings {α : Type} [LinearOrderedField α] (acc : DynErrors)
    (e : String × List α × List α) :
    (dynStep acc e).acceleration_warnings =
      if !(e.2.1.any (fun v => decide (|v| > Config.ACCELERATION_ERROR_THRESHOLD))) &&
          e.2.1.any (fun v => decide (|v| > Config.ACCELERATION_WARNING_THRESHOLD)) then
        acc.acceleration_warnings ++ [e.1]
      else acc.acceleration_warnings := by
  unfold dynStep dynStepEgo dynStepOther
  rcases hE : e.2.1.any (fun v => decide (|v| > Config.ACCELERATION_ERROR_THRESHOLD)) with _ | _ <;>
    rcases hW : e.2.1.any (fun v => decide (|v| > Config.ACCELERATION_WARNING_THRESHOLD)) with _ | _ <;>
      rcases hSE : e.2.2.any (fun v => decide (|v| > Config.SWIMANGLE_ERROR_THRESHOLD)) with _ | _ <;>
        rcases hSW : e.2.2.any (fun v => decide (|v| > Config.SWIMANGLE_WARNING_THRESHOLD)) with _ | _ <;>
          split <;> simp [hE, hW, hSE, hSW]

/-- How one loop iteration changes the swim-angle-error list. -/
theorem dynStep_swimangle_errors {α : Type} [LinearOrderedField α] (acc : DynErrors)
    (e : String × List α × List α) :
    (dynStep acc e).swimangle_errors =
      if e.2.2.any (fun v => decide (|v| > Config.SWIMANGLE_ERROR_THRESHOLD)) then
        acc.swimangle_errors ++ [e.1]
      else acc.swimangle_errors := by
  unfold dynStep dynStepEgo dynStepOther
  split <;> split <;> (try split) <;> (try split) <;> (try split) <;> rfl

/-- How one loop iteration changes the swim-angle-warning list. -/
theorem dynStep_swimangle_warnings {α : Type} [LinearOrderedField α] (acc : DynErrors)
    (e : String × List α × List α) :
    (dynStep acc e).swimangle_warnings =
      if !(e.2.2.any (fun v => decide (|v| > Config.SWIMANGLE_ERROR_THRESHOLD))) &&
          e.2.2.any (fun v => decide (|v| > Config.SWIMANGLE_WARNING_THRESHOLD)) then
        acc.swimangle_warnings ++ [e.1]
      else acc.swimangle_warnings := by
  unfold dynStep dynStepEgo dynStepOther
  rcases hE : e.2.1.any (fun v => decide (|v| > Config.ACCELERATION_ERROR_THRESHOLD)) with _ | _ <;>
    rcases hW : e.2.1.any (fun v => decide (|v| > Config.ACCELERATION_WARNING_THRESHOLD)) with _ | _ <;>
      rcases hSE : e.2.2.any (fun v => decide (|v| > Config.SWIMANGLE_ERROR_THRESHOLD)) with _ | _ <;>
        rcases hSW : e.2.2.any (fun v => decide (|v| > Config.SWIMANGLE_WARNING_THRESHOLD)) with _ | _ <;>
          split <;> simp [hE, hW, hSE, hSW]

/-- Membership in a list that the loop only ever appends to, characterised by
the per-entity append condition. -/
theorem mem_dynFoldl_iff {α : Type} [LinearOrderedField α]
    (proj : DynErrors → List String) (cond : String × List α × List α → Bool)
    (hstep : ∀ (acc : DynErrors) (e : String × List α × List α),
      proj (dynStep acc e) = if cond e then proj acc ++ [e.1] else proj acc)
    (dd : List (String × List α × List α)) (acc : DynErrors) (n : String) :
    n ∈ proj (dd.foldl dynStep acc) ↔ n ∈ proj acc ∨ ∃ e ∈ dd, e.1 = n ∧ cond e := by
  induction dd generalizing acc with
  | nil => simp
  | cons e dd ih =>
    simp only [List.foldl_cons]
    rw [ih, hstep]
    by_cases hc : cond e
    · rw [if_pos hc]
      constructor
      · rintro (h | h)
        · rcases List.mem_append.mp h with h1 | h1
          · exact Or.inl h1
          · have hne : n = e.1 := by simpa using h1
            exact Or.inr ⟨e, List.mem_cons_self _ _, hne.symm, hc⟩
        · rcases h with ⟨x, hx, hxn, hxc⟩
          exact Or.inr ⟨x, List.mem_cons_of_mem _ hx, hxn, hxc⟩
      · rintro (h | h)
        · exact Or.inl (List.mem_append.mpr (Or.inl h))
        · rcases h with ⟨x, hx, hxn, hxc⟩
          rcases List.mem_cons.mp hx with hx1 | hx1
          · subst hx1
            exact Or.inl (List.mem_append.mpr (Or.inr (List.mem_singleton.mpr hxn.symm)))
          · exact Or.inr ⟨x, hx1, hxn, hxc⟩
    · rw [if_neg hc]
      constructor
      · rintro (h | h)
        · exact Or.inl h
        · rcases h with ⟨x, hx, hxn, hxc⟩
          exact Or.inr ⟨x, List.mem_cons_of_mem _ hx, hxn, hxc⟩
      · rintro (h | h)
        · exact Or.inl h
        · rcases h with ⟨x, hx, hxn, hxc⟩
          rcases List.mem_cons.mp hx with hx1 | hx1
          · exact absurd (hx1 ▸ hxc) (by simpa using hc)
          · exact Or.inr ⟨x, hx1, hxn, hxc⟩

/-- C5: per entity and per variable, `check_dynamic_errors` lists the entity as
an error exactly when some sample's absolute value exceeds the error threshold
(acceleration 19.6 = 9.8·2 m/s², swim angle 0.2 rad); otherwise as a warning
exactly when some sample exceeds the warning threshold (9.8 m/s², 0.1 rad);
never in both lists for the same variable (the `elif` short-circuits); and the
ego-named branch and the non-ego branch of the loop are the identical rule. -/
theorem check_dynamic_classification {α : Type} [LinearOrderedField α]
    (dd : List (String × List α × List α)) (n : String) (a s : List α)
    (hnd : (dd.map Prod.fst).Nodup) (hmem : (n, a, s) ∈ dd) :
    (n ∈ (checkDynamicCore dd).acceleration_errors ↔
      a.any (fun v => decide (|v| > Config.ACCELERATION_ERROR_THRESHOLD)) = true) ∧
    (n ∈ (checkDynamicCore dd).acceleration_warnings ↔
      (a.any (fun v => decide (|v| > Config.ACCELERATION_ERROR_THRESHOLD)) = false ∧
       a.any (fun v => decide (|v| > Config.ACCELERATION_WARNING_THRESHOLD)) = true)) ∧
    ¬(n ∈ (checkDynamicCore dd).acceleration_errors ∧
      n ∈ (checkDynamicCore dd).acceleration_warnings) ∧
    (n ∈ (checkDynamicCore dd).swimangle_errors ↔
      s.any (fun v => decide (|v| > Config.SWIMANGLE_ERROR_THRESHOLD)) = true) ∧
    (n ∈ (checkDynamicCore dd).swimangle_warnings ↔
      (s.any (fun v => decide (|v| > Config.SWIMANGLE_ERROR_THRESHOLD)) = false ∧
       s.any (fun v => decide (|v| > Config.SWIMANGLE_WARNING_THRESHOLD)) = true)) ∧
    ¬(n ∈ (checkDynamicCore dd).swimangle_errors ∧
      n ∈ (checkDynamicCore dd).swimangle_warnings) ∧
    (∀ (acc : DynErrors) (name : String) (aS sS : List α),
      dynStepEgo acc name aS sS = dynStepOther acc name aS sS) := by
  have key : ∀ cond : String × List α × List α → Bool,
      (∃ e ∈ dd, e.1 = n ∧ cond e) ↔ cond (n, a, s) = true := by
    intro cond
    constructor
    · rintro ⟨x, hx, hxn, hxc⟩
      have hx2 : x = (n, a, s) := eq_of_mem_of_fst_eq dd x (n, a, s) hnd hx hmem hxn
      rw [← hx2]
      exact hxc
    · intro hcond
      exact ⟨(n, a, s), hmem, rfl, hcond⟩
  unfold checkDynamicCore
  have hAE := mem_dynFoldl_iff DynErrors.acceleration_errors _
    dynStep_acceleration_errors dd ⟨[], [], [], []⟩ n
  have hAW := mem_dynFoldl_iff DynErrors.acceleration_warnings _
    dynStep_acceleration_warnings dd ⟨[], [], [], []⟩ n
  have hSE := mem_dynFoldl_iff DynErrors.swimangle_errors _
    dynStep_swimangle_errors dd ⟨[], [], [], []⟩ n
  have hSW := mem_dynFoldl_iff DynErrors.swimangle_warnings _
    dynStep_swimangle_warnings dd ⟨[], [], [], []⟩ n
  have c1 : n ∈ ((dd.foldl dynStep ⟨[], [], [], []⟩).acceleration_errors) ↔
      a.any (fun v => decide (|v| > Config.ACCELERATION_ERROR_THRESHOLD)) = true := by
    rw [hAE]
    simp only [List.not_mem_nil, false_or]
    exact key _
  have c2 : n ∈ ((dd.foldl dynStep ⟨[], [], [], []⟩).acceleration_warnings) ↔
      (a.any (fun v => decide (|v| > Config.ACCELERATION_ERROR_THRESHOLD)) = false ∧
       a.any (fun v => decide (|v| > Config.ACCELERATION_WARNING_THRESHOLD)) = true) := by
    rw [hAW]
    simp only [List.not_mem_nil, false_or]
    rw [key _]
    simp [Bool.and_eq_true, Bool.not_eq_true']
  have c4 : n ∈ ((dd.foldl dynStep ⟨[], [], [], []⟩).swimangle_errors) ↔
      s.any (fun v => decide (|v| > Config.SWIMANGLE_ERROR_THRESHOLD)) = true := by
    rw [hSE]
    simp only [List.not_mem_nil, false_or]
    exact key _
  have c5 : n ∈ ((dd.foldl dynStep ⟨[], [], [], []⟩).swimangle_warnings) ↔
      (s.any (fun v => decide (|v| > Config.SWIMANGLE_ERROR_THRESHOLD)) = false ∧
       s.any (fun v => decide (|v| > Config.SWIMANGLE_WARNING_THRESHOLD)) = true) := by
    rw [hSW]
    simp only [List.not_mem_nil, false_or]
    rw [key _]
    simp [Bool.and_eq_true, Bool.not_eq_true']
  refine ⟨c1, c2, ?_, c4, c5, ?_, ?_⟩
  · rintro ⟨h1, h2⟩
    rw [c1] at h1
    rw [c2] at h2
    rw [h1] at h2
    exact absurd h2.1 (by simp)
  · rintro ⟨h1, h2⟩
    rw [c4] at h1
    rw [c5] at h2
    rw [h1] at h2
    exact absurd h2.1 (by simp)
  · intro acc name aS sS
    unfold dynStepEgo dynStepOther
    rfl

/-- C5 witness: concrete data — `carego` (an ego-named entity) with
acceleration samples `[25, 5]` is classified as an acceleration error and not
as a warning. -/
theorem check_dynamic_classification_witness :
    "carego" ∈ (checkDynamicCore
      [("carego", ([(25 : ℚ), 5], [(0.05 : ℚ)])), ("bike", ([3], [0.15]))]).acceleration_errors ∧
    "carego" ∉ (checkDynamicCore
      [("carego", ([(25 : ℚ), 5], [(0.05 : ℚ)])), ("bike", ([3], [0.15]))]).acceleration_warnings := by
  have h := check_dynamic_classification
    [("carego", ([(25 : ℚ), 5], [(0.05 : ℚ)])), ("bike", ([3], [0.15]))]
    "carego" [(25 : ℚ), 5] [(0.05 : ℚ)] (by simp) (by simp)
  have herr : "carego" ∈ (checkDynamicCore
      [("carego", ([(25 : ℚ), 5], [(0.05 : ℚ)])), ("bike", ([3], [0.15]))]).acceleration_errors :=
    h.1.mpr (by
      simp only [List.any_cons, List.any_nil, Bool.or_eq_true, decide_eq_true_eq,
        Config.ACCELERATION_ERROR_THRESHOLD]
      left
      rw [abs_of_nonneg (by norm_num)]
      norm_num)
  exact ⟨herr, fun hw => h.2.2.1 ⟨herr, hw⟩⟩

/-- C6: an entity whose data frame has fewer than 2 samples gets empty
acceleration and swim-angle series from the derivation (no derivative exists,
and nothing is raised: the embedding is total exactly like the pandas
slicing, which yields empty/NaN-padded columns), and `check_dynamic_errors`
classifies it as clean: it appears in none of the four lists. -/
theorem empty_trajectory_is_clean (s : Scenario) (n : String) (sh : TrajShape)
    (hget : dictGet (get_dynamic_data s) n = some sh)
    (hlen : (build_dynamic_data_df sh.positions sh.time).length < 2) :
    accelerationList (build_dynamic_data_df sh.positions sh.time) = [] ∧
    swimangleList (build_dynamic_data_df sh.positions sh.time) = [] ∧
    n ∉ (check_dynamic_errors s).acceleration_errors ∧
    n ∉ (check_dynamic_errors s).acceleration_warnings ∧
    n ∉ (check_dynamic_errors s).swimangle_errors ∧
    n ∉ (check_dynamic_errors s).swimangle_warnings := by
  have hnodupdict : ((get_dynamic_data s).map Prod.fst).Nodup :=
    dict_keys_nodup _ _ (by simp)
  have hmemdict : (n, sh) ∈ get_dynamic_data s := mem_of_dictGet_eq_some _ _ _ hget
  have hkey : ∀ (p : String × TrajShape), p ∈ get_dynamic_data s → p.1 = n → p = (n, sh) :=
    fun p hp hpn => eq_of_mem_of_fst_eq _ p (n, sh) hnodupdict hp hmemdict hpn
  have hempty : accelerationList (build_dynamic_data_df sh.positions sh.time) = [] ∧
      swimangleList (build_dynamic_data_df sh.positions sh.time) = [] := by
    generalize hdf : build_dynamic_data_df sh.positions sh.time = df at hlen ⊢
    rcases df with _ | ⟨x, df2⟩
    · exact ⟨rfl, rfl⟩
    · rcases df2 with _ | ⟨y, rest⟩
      · exact ⟨rfl, rfl⟩
      · simp at hlen
        omega
  have main : ∀ (proj : DynErrors → List String) (cond : String × List ℝ × List ℝ → Bool),
      (∀ (acc : DynErrors) (e : String × List ℝ × List ℝ),
        proj (dynStep acc e) = if cond e then proj acc ++ [e.1] else proj acc) →
      proj ⟨[], [], [], []⟩ = [] →
      cond (n, accelerationList (build_dynamic_data_df sh.positions sh.time),
        swimangleList (build_dynamic_data_df sh.positions sh.time)) = false →
      n ∉ proj (check_dynamic_errors s) := by
    intro proj cond hstep hinit hcond hmem
    unfold check_dynamic_errors checkDynamicCore at hmem
    rw [mem_dynFoldl_iff proj cond hstep] at hmem
    rcases hmem with h | ⟨e, he, hen, hec⟩
    · rw [hinit] at h
      simp at h
    · rcases List.mem_map.mp he with ⟨p, hp, hpe⟩
      have hpn : p.1 = n := by rw [← hen, ← hpe]
      have hp2 : p = (n, sh) := hkey p hp hpn
      rw [hp2] at hpe
      rw [← hpe] at hec
      have hfalse : cond ((n, sh).1,
          accelerationList (build_dynamic_data_df (n, sh).2.positions (n, sh).2.time),
          swimangleList (build_dynamic_data_df (n, sh).2.positions (n, sh).2.time)) = false :=
        hcond
      rw [hfalse] at hec
      exact Bool.false_ne_true hec
  refine ⟨hempty.1, hempty.2, ?_, ?_, ?_, ?_⟩
  · exact main DynErrors.acceleration_errors _ dynStep_acceleration_errors rfl
      (by rw [hempty.1]; rfl)
  · exact main DynErrors.acceleration_warnings _ dynStep_acceleration_warnings rfl
      (by rw [hempty.1]; rfl)
  · exact main DynErrors.swimangle_errors _ dynStep_swimangle_errors rfl
      (by rw [hempty.2]; rfl)
  · exact main DynErrors.swimangle_warnings _ dynStep_swimangle_warnings rfl
      (by rw [hempty.2]; rfl)

/-- A one-sample trajectory shape. -/
def oneSampleShape : TrajShape := ⟨[((0 : ℚ), (0 : ℚ), (0 : ℚ))], [(0 : ℚ)]⟩

/-- A loaded scenario whose single maneuver group gives actor `veh1` one
trajectory event with a single sample. -/
def oneSampleScenario : Scenario :=
  ⟨⟨"author"⟩, [⟨"veh1", some "car", some (2, 1)⟩],
   ⟨[⟨[⟨[⟨["veh1"], [⟨[⟨"Trajectory_event_1", [⟨oneSampleShape⟩]⟩]⟩]⟩]⟩]⟩], []⟩⟩

/-- C6 witness: the one-sample entity derives empty series and lands in no
error or warning list. -/
theorem empty_trajectory_is_clean_witness :
    accelerationList (build_dynamic_data_df oneSampleShape.positions oneSampleShape.time) = [] ∧
    swimangleList (build_dynamic_data_df oneSampleShape.positions oneSampleShape.time) = [] ∧
    "veh1" ∉ (check_dynamic_errors oneSampleScenario).acceleration_errors ∧
    "veh1" ∉ (check_dynamic_errors oneSampleScenario).acceleration_warnings ∧
    "veh1" ∉ (check_dynamic_errors oneSampleScenario).swimangle_errors ∧
    "veh1" ∉ (check_dynamic_errors oneSampleScenario).swimangle_warnings :=
  empty_trajectory_is_clean oneSampleScenario "veh1" oneSampleShape (by rfl) (by decide)

/-- A second one-sample shape, distinguishable from `oneSampleShape`. -/
def secondShape : TrajShape := ⟨[((1 : ℚ), (1 : ℚ), (0 : ℚ))], [(1 : ℚ)]⟩

/-- A maneuver group with two actors and two trajectory events. -/
def twoEventScenario : Scenario :=
  ⟨⟨"author"⟩, [],
   ⟨[⟨[⟨[⟨["veh1", "veh2"],
      [⟨[⟨"Trajectory_event_1", [⟨oneSampleShape⟩]⟩,
         ⟨"Trajectory_event_2", [⟨secondShape⟩]⟩]⟩]⟩]⟩]⟩], []⟩⟩

/-- C10 witness: with two trajectory events on the same group, the first actor
ends up with the LAST event's data, and the second actor of the group gets
none. -/
theorem get_dynamic_data_last_event_wins_witness :
    dictGet (get_dynamic_data twoEventScenario) "veh1" = some secondShape ∧
    dictGet (get_dynamic_data twoEventScenario) "veh2" = none :=
  ⟨by rfl, (get_dynamic_data_last_event_wins twoEventScenario "veh2").2 (by decide)⟩

theorem dictUpd_length {β : Type} (m : List (String × β)) (k : String) (v : β) :
    (dictUpd m k v).length = if k ∈ m.map Prod.fst then m.length else m.length + 1 := by
  induction m with
  | nil => simp [dictUpd]
  | cons p m ih =>
    by_cases hp : p.1 = k
    · simp [dictUpd, hp]
    · have hkp : ¬ (k = p.1) := fun h => hp h.symm
      by_cases hk : k ∈ m.map Prod.fst <;>
        simp [dictUpd, hp, hkp, hk, ih]

theorem dictUpd_keys_of_not_mem {β : Type} (m : List (String × β)) (k : String) (v : β)
    (hk : k ∉ m.map Prod.fst) :
    (dictUpd m k v).map Prod.fst = m.map Prod.fst ++ [k] := by
  induction m with
  | nil => simp [dictUpd]
  | cons p m ih =>
    have hp : ¬ (p.1 = k) := by
      intro h
      exact hk (by simp [h])
    simp only [dictUpd, if_neg hp, List.map_cons]
    rw [ih (by intro h; exact hk (by simp [h]))]
    simp

/-- A dict built from pairs with fresh, pairwise distinct keys has exactly one
entry per pair. -/
theorem foldl_dictUpd_length_nodup {β : Type} (xs : List (String × β))
    (m : List (String × β)) (hnd : (m.map Prod.fst ++ xs.map Prod.fst).Nodup) :
    (xs.foldl (fun m p => dictUpd m p.1 p.2) m).length = m.length + xs.length := by
  induction xs generalizing m with
  | nil => simp
  | cons x xs ih =>
    simp only [List.foldl_cons]
    have hx_not : x.1 ∉ m.map Prod.fst := by
      intro hmem
      rcases List.nodup_append.mp hnd with ⟨_, _, hdisj⟩
      exact hdisj hmem (by simp)
    have hkeys : (dictUpd m x.1 x.2).map Prod.fst = m.map Prod.fst ++ [x.1] :=
      dictUpd_keys_of_not_mem m x.1 x.2 hx_not
    have hnd2 : ((dictUpd m x.1 x.2).map Prod.fst ++ xs.map Prod.fst).Nodup := by
      rw [hkeys, List.append_assoc]
      simpa using hnd
    rw [ih _ hnd2, dictUpd_length, if_neg hx_not]
    simp only [List.length_cons]
    omega

theorem get_entities_length (objs : List ScenarioObject)
    (hnd : (objs.map ScenarioObject.name).Nodup) :
    (get_entities objs).length = objs.length := by
  have key : ∀ (g : ScenarioObject → Option String),
      (objs.foldl (fun m o => dictUpd m o.name (g o)) []).length = objs.length := by
    intro g
    have hlen := foldl_dictUpd_length_nodup
      (objs.map (fun o : ScenarioObject => (o.name, g o))) []
      (by
        simp only [List.map_nil, List.nil_append, List.map_map]
        exact hnd)
    have hconv : (objs.foldl (fun m o => dictUpd m o.name (g o)) []) =
        ((objs.map (fun o : ScenarioObject => (o.name, g o))).foldl
          (fun m p => dictUpd m p.1 p.2) []) := by
      rw [List.foldl_map]
    rw [hconv, hlen]
    simp
  unfold get_entities
  split
  · exact key _
  · exact key _

/-- C4: for every input whose three gates pass (the result record holds a
loaded scenario), the entry under key `'total'` of the entity-count mapping is
the number of declared entities in the scenario's entity list (stored by the
source as its decimal string, `str(len(entities))`); entity names are assumed
distinct, as OpenSCENARIO requires of a schema-valid file. -/
theorem entity_counts_total (f : XFile) (schemaFiles : List String) (sc : Scenario)
    (r : CheckerResult) (hok : fileQualityChecker f schemaFiles = Except.ok r)
    (hsc : r.scenario = some sc)
    (hnd : (sc.entities.map ScenarioObject.name).Nodup) :
    r.road_user_counts.total = some (Nat.repr sc.entities.length) := by
  unfold fileQualityChecker at hok
  split at hok
  · have hr : defaultResult = r := Except.ok.inj hok
    rw [← hr] at hsc
    exact absurd hsc (by simp [defaultResult])
  · split at hok
    · exact absurd hok (by simp)
    · split at hok
      · have hr := Except.ok.inj hok
        rw [← hr] at hsc
        exact absurd hsc (by simp [defaultResult])
      · split at hok
        · have hr := Except.ok.inj hok
          rw [← hr] at hsc
          exact absurd hsc (by simp [defaultResult])
        · rename_i sc2 heq
          have hr := Except.ok.inj hok
          rw [← hr] at hsc
          have hsc2 : sc2 = sc := by simpa using hsc
          subst hsc2
          rw [← hr]
          show (roadUserCounts (check_file_errors sc2).1).total =
            some (Nat.repr sc2.entities.length)
          have hcf : (check_file_errors sc2).1 = get_entities sc2.entities := rfl
          unfold roadUserCounts
          rw [hcf, get_entities_length _ hnd]

/-- A root header carrying a supported schema version. -/
def versionedTree : XMLTree := ⟨[⟨[("revMajor", "1"), ("revMinor", "0")]⟩], none⟩

/-- A loadable scenario declaring two entities. -/
def twoEntityScenario : Scenario :=
  ⟨⟨"me"⟩, [⟨"ego1", some "car", some (2, 1)⟩, ⟨"ped1", some "pedestrian", none⟩], ⟨[], []⟩⟩

/-- An input file that passes all three gates and loads `twoEntityScenario`. -/
def passingFile : XFile := ⟨true, versionedTree, true, some twoEntityScenario⟩

/-- C4 witness: for the concrete all-gates-pass file, the `'total'` entry is
the string of the declared entity count (2). -/
theorem entity_counts_total_witness :
    ∃ r, fileQualityChecker passingFile ["OpenSCENARIO_1-0.xsd"] = Except.ok r ∧
      r.road_user_counts.total = some (Nat.repr twoEntityScenario.entities.length) := by
  refine ⟨_, rfl, ?_⟩
  exact entity_counts_total passingFile ["OpenSCENARIO_1-0.xsd"] twoEntityScenario _
    rfl rfl (by decide)

/-- The schema stage can read the version: the root has a first child whose
`revMajor` parses as an integer and which carries a `revMinor`. -/
def headerVersionReadable (t : XMLTree) : Prop :=
  ∃ el maj minr, t.children.head? = some el ∧ lookupAttr el "revMajor" = some maj ∧
    (pyInt maj).isSome ∧ lookupAttr el "revMinor" = some minr

/-- On a version-readable tree, `is_xsd_valid` never raises. -/
theorem is_xsd_valid_ok_of_readable (t : XMLTree) (sf : List String) (verdict : Bool)
    (hread : headerVersionReadable t) :
    ∃ res, is_xsd_valid t sf verdict = Except.ok res := by
  rcases hread with ⟨el, maj, minr, hel, hmaj, hparse, hmin⟩
  rcases Option.isSome_iff_exists.mp hparse with ⟨n, hn⟩
  unfold is_xsd_valid
  simp only [hel, hmaj, hmin, hn]
  by_cases h2 : n < 2
  · rw [if_pos h2]
    by_cases hsf : ("OpenSCENARIO_" ++ (maj ++ "-" ++ minr) ++ ".xsd") ∈ sf
    · rw [if_pos hsf]
      exact ⟨_, rfl⟩
    · rw [if_neg hsf]
      exact ⟨_, rfl⟩
  · rw [if_neg h2]
    exact ⟨_, rfl⟩

/-- C1 counterexample: an XML-loadable file whose root has no children (so the
schema gate's `root[0]` raises IndexError).  The constructor raises instead of
producing a result record, refuting the claim that every gate failure — here a
schema-invalid file — yields a record and lets no exception escape. -/
theorem gate_failure_exception_counterexample :
    fileQualityChecker ⟨true, ⟨[], none⟩, true, none⟩ ["OpenSCENARIO_1-0.xsd"] =
      Except.error PyErr.indexError ∧
    ∀ r, fileQualityChecker ⟨true, ⟨[], none⟩, true, none⟩ ["OpenSCENARIO_1-0.xsd"] ≠
      Except.ok r := by
  have h : fileQualityChecker ⟨true, ⟨[], none⟩, true, none⟩ ["OpenSCENARIO_1-0.xsd"] =
      Except.error PyErr.indexError := rfl
  refine ⟨h, fun r hr => ?_⟩
  rw [h] at hr
  exact Except.noConfusion hr

/-- C1 (amended): for every input file whose root header exposes an
integer-parsable `revMajor` and a `revMinor` — the attributes the schema stage
reads unguardedly — the constructor never raises, and each failed gate yields a
result record with all downstream fields at their empty/null defaults:
markup failure gives the all-defaults record (`markup_ok=false`,
`schema_ok=false`, `model=null`, empty error lists, no exception regardless of
the header); schema failure sets only `markup_ok` and the version string;
model-load failure additionally sets `schema_ok=true` and leaves `model=null`
with every error field at its default. -/
theorem gate_failures_yield_default_records (f : XFile) (sf : List String)
    (hread : headerVersionReadable f.tree) :
    (∃ r, fileQualityChecker f sf = Except.ok r) ∧
    (f.xmlLoadable = false → fileQualityChecker f sf = Except.ok defaultResult) ∧
    (∀ v, f.xmlLoadable = true → is_xsd_valid f.tree sf f.xsdVerdict = Except.ok (false, v) →
      fileQualityChecker f sf =
        Except.ok { defaultResult with xml_loadable := true, version := some v }) ∧
    (∀ v, f.xmlLoadable = true → is_xsd_valid f.tree sf f.xsdVerdict = Except.ok (true, v) →
      f.loadResult = none →
      fileQualityChecker f sf =
        Except.ok { defaultResult with
          xml_loadable := true, xsd_valid := true, version := some v }) := by
  rcases is_xsd_valid_ok_of_readable f.tree sf f.xsdVerdict hread with ⟨res, hres⟩
  refine ⟨?_, ?_, ?_, ?_⟩
  · unfold fileQualityChecker
    by_cases hxml : f.xmlLoadable = false
    · rw [if_pos hxml]
      exact ⟨_, rfl⟩
    · obtain ⟨valid, ver⟩ := res
      rw [if_neg hxml]
      simp only [hres]
      by_cases hvalid : valid = false
      · rw [if_pos hvalid]
        exact ⟨_, rfl⟩
      · rw [if_neg hvalid]
        rcases f.loadResult with _ | sc
        · exact ⟨_, rfl⟩
        · exact ⟨_, rfl⟩
  · intro hxml
    unfold fileQualityChecker
    rw [if_pos hxml]
  · intro v hxml hvalid
    unfold fileQualityChecker
    rw [if_neg (by rw [hxml]; simp)]
    simp only [hvalid]
    simp
  · intro v hxml hvalid hload
    unfold fileQualityChecker
    rw [if_neg (by rw [hxml]; simp)]
    simp only [hvalid, hload]
    simp

/-- An XML-loadable file with a readable header whose schema file is absent. -/
def schemaMissingFile : XFile := ⟨true, versionedTree, true, none⟩

/-- C1 witness: for the concrete file whose schema gate fails (no schema file
available for version 1-0), the constructor returns the record with only
`xml_loadable` and the version set and everything downstream at defaults. -/
theorem gate_failures_yield_default_records_witness :
    headerVersionReadable versionedTree ∧
    fileQualityChecker schemaMissingFile [] =
      Except.ok { defaultResult with xml_loadable := true, version := some "1-0" } := by
  have hread : headerVersionReadable versionedTree :=
    ⟨⟨[("revMajor", "1"), ("revMinor", "0")]⟩, "1", "0", rfl, rfl, rfl, rfl⟩
  exact ⟨hread,
    (gate_failures_yield_default_records schemaMissingFile [] hread).2.2.1 "1-0" rfl rfl⟩

/-- Two closed intervals `[c1 - r1, c1 + r1]` and `[c2 - r2, c2 + r2]` meet
exactly when the centre distance is at most the radius sum. -/
theorem interval_overlap_iff (c1 c2 r1 r2 : ℝ) (h1 : 0 ≤ r1) (h2 : 0 ≤ r2) :
    (∃ x : ℝ, |x - c1| ≤ r1 ∧ |x - c2| ≤ r2) ↔ |c1 - c2| ≤ r1 + r2 := by
  constructor
  · rintro ⟨x, hx1, hx2⟩
    have htri := abs_sub_le c1 x c2
    rw [abs_sub_comm c1 x] at htri
    linarith [htri, hx1, hx2]
  · intro h
    rw [abs_le] at h
    refine ⟨max (c1 - r1) (c2 - r2), ?_, ?_⟩
    · rw [abs_le]
      constructor
      · have := le_max_left (c1 - r1) (c2 - r2)
        linarith
      · have ha : c1 - r1 ≤ c1 + r1 := by linarith
        have hb : c2 - r2 ≤ c1 + r1 := by linarith [h.1]
        have := max_le ha hb
        linarith
    · rw [abs_le]
      constructor
      · have := le_max_right (c1 - r1) (c2 - r2)
        linarith
      · have ha : c1 - r1 ≤ c2 + r2 := by linarith [h.2]
        have hb : c2 - r2 ≤ c2 + r2 := by linarith
        have := max_le ha hb
        linarith

/-- The decidable rectangle test agrees with non-emptiness of the intersection
of the two closed rectangles (shapely's polygon intersection, boundary
included), for nonnegative dimensions. -/
theorem rectOverlap_iff_nonempty (a b : Footprint)
    (hal : 0 ≤ a.length) (haw : 0 ≤ a.width) (hbl : 0 ≤ b.length) (hbw : 0 ≤ b.width) :
    rectOverlap a b ↔ (rectSet a ∩ rectSet b).Nonempty := by
  have hx := interval_overlap_iff (a.cx : ℝ) (b.cx : ℝ) ((a.length : ℝ) / 2)
    ((b.length : ℝ) / 2) (by positivity) (by positivity)
  have hy := interval_overlap_iff (a.cy : ℝ) (b.cy : ℝ) ((a.width : ℝ) / 2)
    ((b.width : ℝ) / 2) (by positivity) (by positivity)
  constructor
  · rintro ⟨hcx, hcy⟩
    have hcxR : |(a.cx : ℝ) - b.cx| ≤ (a.length : ℝ) / 2 + (b.length : ℝ) / 2 := by
      rw [show (a.length : ℝ) / 2 + (b.length : ℝ) / 2 = ((a.length + b.length : ℚ) : ℝ) / 2
        by push_cast; ring]
      rw [show (a.cx : ℝ) - b.cx = ((a.cx - b.cx : ℚ) : ℝ) by push_cast; ring]
      rw [← Rat.cast_abs]
      exact_mod_cast hcx
    have hcyR : |(a.cy : ℝ) - b.cy| ≤ (a.width : ℝ) / 2 + (b.width : ℝ) / 2 := by
      rw [show (a.width : ℝ) / 2 + (b.width : ℝ) / 2 = ((a.width + b.width : ℚ) : ℝ) / 2
        by push_cast; ring]
      rw [show (a.cy : ℝ) - b.cy = ((a.cy - b.cy : ℚ) : ℝ) by push_cast; ring]
      rw [← Rat.cast_abs]
      exact_mod_cast hcy
    obtain ⟨x, hx1, hx2⟩ := hx.mpr hcxR
    obtain ⟨y, hy1, hy2⟩ := hy.mpr hcyR
    exact ⟨(x, y), ⟨hx1, hy1⟩, ⟨hx2, hy2⟩⟩
  · rintro ⟨p, hpa, hpb⟩
    have hcxR := hx.mp ⟨p.1, hpa.1, hpb.1⟩
    have hcyR := hy.mp ⟨p.2, hpa.2, hpb.2⟩
    constructor
    · rw [show (a.length : ℝ) / 2 + (b.length : ℝ) / 2 = ((a.length + b.length : ℚ) : ℝ) / 2
        by push_cast; ring] at hcxR
      rw [show (a.cx : ℝ) - b.cx = ((a.cx - b.cx : ℚ) : ℝ) by push_cast; ring,
        ← Rat.cast_abs] at hcxR
      exact_mod_cast hcxR
    · rw [show (a.width : ℝ) / 2 + (b.width : ℝ) / 2 = ((a.width + b.width : ℚ) : ℝ) / 2
        by push_cast; ring] at hcyR
      rw [show (a.cy : ℝ) - b.cy = ((a.cy - b.cy : ℚ) : ℝ) by push_cast; ring,
        ← Rat.cast_abs] at hcyR
      exact_mod_cast hcyR

theorem mem_le_foldr_max (l : List ℚ) (x : ℚ) (hx : x ∈ l) (init : ℚ) :
    x ≤ l.foldr max init := by
  induction l with
  | nil => simp at hx
  | cons a l ih =>
    simp only [List.foldr_cons]
    rcases List.mem_cons.mp hx with h | h
    · rw [h]
      exact le_max_left _ _
    · exact le_trans (ih h) (le_max_right _ _)

/-- Overlapping rectangles have squared centre distance at most
`(2 · max radius)²`. -/
theorem distSq_le_of_overlap (a b : Footprint) (hov : rectOverlap a b) :
    distSq a b ≤ 4 * max (radiusSq a) (radiusSq b) := by
  rcases hov with ⟨hx, hy⟩
  rw [abs_le] at hx hy
  have h1 : (a.cx - b.cx) ^ 2 ≤ ((a.length + b.length) / 2) ^ 2 :=
    sq_le_sq' (by linarith [hx.1]) hx.2
  have h2 : (a.cy - b.cy) ^ 2 ≤ ((a.width + b.width) / 2) ^ 2 :=
    sq_le_sq' (by linarith [hy.1]) hy.2
  unfold distSq radiusSq
  have hma : (a.length ^ 2 + a.width ^ 2) / 4 ≤
      max ((a.length ^ 2 + a.width ^ 2) / 4) ((b.length ^ 2 + b.width ^ 2) / 4) :=
    le_max_left _ _
  have hmb : (b.length ^ 2 + b.width ^ 2) / 4 ≤
      max ((a.length ^ 2 + a.width ^ 2) / 4) ((b.length ^ 2 + b.width ^ 2) / 4) :=
    le_max_right _ _
  nlinarith [sq_nonneg (a.length - b.length), sq_nonneg (a.width - b.width), h1, h2, hma, hmb]

theorem maxRadiusSq_bound (fps : List Footprint) (a b : Footprint)
    (ha : a ∈ fps) (hb : b ∈ fps) :
    max (radiusSq a) (radiusSq b) ≤ maxEntityRadiusSq fps := by
  unfold maxEntityRadiusSq
  exact max_le
    (mem_le_foldr_max _ _ (List.mem_map.mpr ⟨a, ha, rfl⟩) 0)
    (mem_le_foldr_max _ _ (List.mem_map.mpr ⟨b, hb, rfl⟩) 0)

theorem sqrt_max_eq (x y : ℝ) :
    Real.sqrt (max x y) = max (Real.sqrt x) (Real.sqrt y) := by
  rcases le_total x y with h | h
  · rw [max_eq_right h, max_eq_right (Real.sqrt_le_sqrt h)]
  · rw [max_eq_left h, max_eq_left (Real.sqrt_le_sqrt h)]

theorem boundingRadius_eq_sqrt (f : Footprint) :
    boundingRadius f = Real.sqrt ((radiusSq f : ℚ) : ℝ) := by
  unfold boundingRadius radiusSq
  rw [show (((f.length ^ 2 + f.width ^ 2) / 4 : ℚ) : ℝ) =
    ((f.length : ℝ) ^ 2 + (f.width : ℝ) ^ 2) / 4 by push_cast; ring]
  rw [Real.sqrt_div' _ (by norm_num : (0 : ℝ) ≤ 4)]
  rw [show Real.sqrt 4 = 2 by
    rw [show (4 : ℝ) = 2 ^ 2 by norm_num, Real.sqrt_sq (by norm_num)]]

theorem maxEntityRadius_eq_sqrt (fps : List Footprint) :
    maxEntityRadius fps = Real.sqrt ((maxEntityRadiusSq fps : ℚ) : ℝ) := by
  unfold maxEntityRadius maxEntityRadiusSq
  induction fps with
  | nil => simp [Real.sqrt_zero]
  | cons f l ih =>
    simp only [List.map_cons, List.foldr_cons]
    rw [ih, boundingRadius_eq_sqrt, Rat.cast_max, sqrt_max_eq]

theorem centerDist_eq_sqrt (a b : Footprint) :
    centerDist a b = Real.sqrt ((distSq a b : ℚ) : ℝ) := by
  unfold centerDist distSq
  congr 1
  push_cast
  ring

/-- Pairs inside the prefilter window that really overlap are reported. -/
theorem get_intersecting_entities_reports (fps : List Footprint) (i j : Nat)
    (hi : i < fps.length) (hj : j < fps.length) (hij : i < j)
    (hnoise : 1 / 10 ^ 12 < distSq (fps.get ⟨i, hi⟩) (fps.get ⟨j, hj⟩))
    (hwin : distSq (fps.get ⟨i, hi⟩) (fps.get ⟨j, hj⟩) < 4 * maxEntityRadiusSq fps)
    (hov : rectOverlap (fps.get ⟨i, hi⟩) (fps.get ⟨j, hj⟩)) :
    ((fps.get ⟨i, hi⟩).name, (fps.get ⟨j, hj⟩).name) ∈ get_intersecting_entities fps := by
  unfold get_intersecting_entities
  rw [if_pos (by omega)]
  rw [List.mem_flatMap]
  refine ⟨(i, fps.get ⟨i, hi⟩), ?_, ?_⟩
  · rw [List.mk_mem_enum_iff_getElem?]
    rw [List.getElem?_eq_getElem hi]
    rfl
  · rw [List.mem_filterMap]
    refine ⟨(j, fps.get ⟨j, hj⟩), ?_, ?_⟩
    · rw [List.mk_mem_enum_iff_getElem?]
      rw [List.getElem?_eq_getElem hj]
      rfl
    · rw [if_pos ⟨hij, hnoise, hwin⟩, if_pos hov]

/-- C3 (amended): the radius prefilter is mathematically sound — any two
footprints whose rectangles truly intersect have centre distance at most
`2 × max_entity_radius` — and the filtered check reports every truly
intersecting pair whose centre distance additionally lies strictly inside the
prefilter window, i.e. above the `1e-6` noise floor and strictly below
`2 × max_entity_radius`.  (The original claim — that EVERY truly intersecting
pair is reported — fails for pairs at centre distance ≤ 1e-6, e.g. coincident
centres: see the counterexample.)  Dimensions are nonnegative as in any
scenario bounding box. -/
theorem intersection_prefilter_no_false_negatives (fps : List Footprint)
    (hdims : ∀ f ∈ fps, 0 ≤ f.length ∧ 0 ≤ f.width) :
    (∀ a ∈ fps, ∀ b ∈ fps, (rectSet a ∩ rectSet b).Nonempty →
      centerDist a b ≤ 2 * maxEntityRadius fps) ∧
    (∀ (i j : Nat) (hi : i < fps.length) (hj : j < fps.length), i < j →
      1 / 10 ^ 12 < distSq (fps.get ⟨i, hi⟩) (fps.get ⟨j, hj⟩) →
      distSq (fps.get ⟨i, hi⟩) (fps.get ⟨j, hj⟩) < 4 * maxEntityRadiusSq fps →
      (rectSet (fps.get ⟨i, hi⟩) ∩ rectSet (fps.get ⟨j, hj⟩)).Nonempty →
      ((fps.get ⟨i, hi⟩).name, (fps.get ⟨j, hj⟩).name) ∈ get_intersecting_entities fps) := by
  constructor
  · intro a ha b hb hne
    have hov : rectOverlap a b :=
      (rectOverlap_iff_nonempty a b (hdims a ha).1 (hdims a ha).2
        (hdims b hb).1 (hdims b hb).2).mpr hne
    have hd1 := distSq_le_of_overlap a b hov
    have hd2 := maxRadiusSq_bound fps a b ha hb
    have hd : distSq a b ≤ 4 * maxEntityRadiusSq fps := by linarith
    rw [centerDist_eq_sqrt, maxEntityRadius_eq_sqrt]
    have h4 : ((distSq a b : ℚ) : ℝ) ≤ 4 * ((maxEntityRadiusSq fps : ℚ) : ℝ) := by
      exact_mod_cast hd
    calc Real.sqrt ((distSq a b : ℚ) : ℝ)
        ≤ Real.sqrt (4 * ((maxEntityRadiusSq fps : ℚ) : ℝ)) := Real.sqrt_le_sqrt h4
      _ = 2 * Real.sqrt ((maxEntityRadiusSq fps : ℚ) : ℝ) := by
          rw [Real.sqrt_mul (by norm_num : (0 : ℝ) ≤ 4)]
          rw [show Real.sqrt 4 = 2 by
            rw [show (4 : ℝ) = 2 ^ 2 by norm_num, Real.sqrt_sq (by norm_num)]]
  · intro i j hi hj hij hnoise hwin hne
    have hgi := List.get_mem fps i hi
    have hgj := List.get_mem fps j hj
    have hov : rectOverlap (fps.get ⟨i, hi⟩) (fps.get ⟨j, hj⟩) :=
      (rectOverlap_iff_nonempty _ _ (hdims _ hgi).1 (hdims _ hgi).2
        (hdims _ hgj).1 (hdims _ hgj).2).mpr hne
    exact get_intersecting_entities_reports fps i j hi hj hij hnoise hwin hov

/-- C3 counterexample: two 2×2 footprints with coincident centres — their
rectangles coincide, so the true intersection is certainly non-empty — are
never reported: their centre distance 0 fails the prefilter's `> 1e-6` noise
floor, so the pair never reaches the exact test.  The prefilter does produce
false negatives. -/
theorem intersection_prefilter_counterexample :
    (rectSet ⟨"a", 0, 0, 2, 2⟩ ∩ rectSet ⟨"b", 0, 0, 2, 2⟩).Nonempty ∧
    get_intersecting_entities [⟨"a", 0, 0, 2, 2⟩, ⟨"b", 0, 0, 2, 2⟩] = [] := by
  constructor
  · refine ⟨(0, 0), ⟨?_, ?_⟩, ⟨?_, ?_⟩⟩ <;> norm_num
  · have hd : distSq (⟨"a", 0, 0, 2, 2⟩ : Footprint) ⟨"b", 0, 0, 2, 2⟩ = 0 := by
      norm_num [distSq]
    have hn : ¬((1 : ℚ) / 10 ^ 12 < 0) := by norm_num
    simp [get_intersecting_entities, List.enum, List.enumFrom, hd, hn]

/-- C3 witness: two overlapping 2×2 footprints at centre distance 1 (inside
the prefilter window) are reported by the filtered check. -/
theorem intersection_prefilter_witness :
    ("a", "b") ∈ get_intersecting_entities [⟨"a", 0, 0, 2, 2⟩, ⟨"b", 1, 0, 2, 2⟩] := by
  have hn : (1 : ℚ) / 10 ^ 12 <
      distSq (⟨"a", 0, 0, 2, 2⟩ : Footprint) ⟨"b", 1, 0, 2, 2⟩ := by
    norm_num [distSq]
  have hw : distSq (⟨"a", 0, 0, 2, 2⟩ : Footprint) ⟨"b", 1, 0, 2, 2⟩ <
      4 * maxEntityRadiusSq [⟨"a", 0, 0, 2, 2⟩, ⟨"b", 1, 0, 2, 2⟩] := by
    norm_num [distSq, maxEntityRadiusSq, radiusSq]
  have hne : (rectSet (⟨"a", 0, 0, 2, 2⟩ : Footprint) ∩
      rectSet (⟨"b", 1, 0, 2, 2⟩ : Footprint)).Nonempty :=
    ⟨((1 : ℝ) / 2, 0), ⟨by norm_num [abs_le], by norm_num [abs_le]⟩,
      ⟨by norm_num [abs_le], by norm_num [abs_le]⟩⟩
  exact (intersection_prefilter_no_false_negatives
    [⟨"a", 0, 0, 2, 2⟩, ⟨"b", 1, 0, 2, 2⟩]
    (by
      intro f hf
      simp only [List.mem_cons, List.not_mem_nil, or_false] at hf
      rcases hf with h | h <;> subst h <;> exact ⟨by norm_num, by norm_num⟩)).2 0 1
    (by norm_num) (by norm_num) (by norm_num) hn hw hne

/-- Python's nonnegative float modulo: for a positive divisor the result lies
in `[0, b)`. -/
theorem fmod_mem_Ico (a b : ℝ) (hb : 0 < b) : fmod a b ∈ Set.Ico 0 b := by
  have h : fmod a b = b * Int.fract (a / b) := by
    unfold fmod Int.fract
    field_simp
  constructor
  · rw [h]
    exact mul_nonneg hb.le (Int.fract_nonneg _)
  · rw [h]
    calc b * Int.fract (a / b) < b * 1 := (mul_lt_mul_left hb).mpr (Int.fract_lt_one _)
      _ = b := mul_one b

/-- Entry `i` of an adjacent-pairs column (`zipWith f df.tail df`). -/
theorem zipWith_tail_getElem? {γ : Type} (f : Sample → Sample → γ) (df : List Sample)
    (i : Nat) (h : i + 1 < df.length) :
    (List.zipWith f df.tail df)[i]? = some (f (df.get ⟨i + 1, h⟩) (df.get ⟨i, by omega⟩)) := by
  have hlen : i < (List.zipWith f df.tail df).length := by
    simp [List.length_zipWith, List.length_tail]
    omega
  rw [List.getElem?_eq_getElem hlen]
  rw [List.getElem_zipWith]
  simp [List.getElem_tail, List.get_eq_getElem]

theorem speedList_length (df : List Sample) : (speedList df).length = df.length - 1 := by
  unfold speedList
  simp [List.length_zipWith, List.length_tail]

theorem tChange_length (df : List Sample) : (tChange df).length = df.length - 1 := by
  unfold tChange
  simp [List.length_zipWith, List.length_tail]

theorem movementAngleList_length (df : List Sample) :
    (movementAngleList df).length = df.length - 1 := by
  unfold movementAngleList
  simp [List.length_zipWith, List.length_tail]

/-- The three straight-line samples of the spec's worked example:
`(0,0) → (3,4) → (6,8)` at one-second steps. -/
def straightSamples : List Sample := [⟨0, 0, 0, 0⟩, ⟨1, 3, 4, 0⟩, ⟨2, 6, 8, 0⟩]

/-- C7: per step of one sample, the derivation computes
speed `= sqrt(Δx² + Δy²)/Δt`, movement angle `= atan2(Δy, Δx)` pushed into
`[0, 2π)` by the float modulo, swim angle `= heading − movement angle` with no
further normalisation, and acceleration `= (speed[i+1] − speed[i]) / Δt[i]`
(the first difference of speed over the same `Δt`); in particular the
`(0,0)→(3,4)→(6,8)` samples at `Δt = 1 s` derive speeds `[5, 5]` m/s and
acceleration `[0]`. -/
theorem kinematics_derivation (df : List Sample) :
    (∀ (i : Nat) (h : i + 1 < df.length),
      (speedList df)[i]? = some (Real.sqrt
        ((((df.get ⟨i + 1, h⟩).x : ℝ) - ((df.get ⟨i, by omega⟩).x : ℝ)) ^ 2 +
         (((df.get ⟨i + 1, h⟩).y : ℝ) - ((df.get ⟨i, by omega⟩).y : ℝ)) ^ 2) /
        (((df.get ⟨i + 1, h⟩).time : ℝ) - ((df.get ⟨i, by omega⟩).time : ℝ)))) ∧
    (∀ (i : Nat) (h : i + 1 < df.length),
      (movementAngleList df)[i]? = some (fmod (atan2
        (((df.get ⟨i + 1, h⟩).y : ℝ) - ((df.get ⟨i, by omega⟩).y : ℝ))
        (((df.get ⟨i + 1, h⟩).x : ℝ) - ((df.get ⟨i, by omega⟩).x : ℝ))) (2 * Real.pi))) ∧
    (∀ a ∈ movementAngleList df, 0 ≤ a ∧ a < 2 * Real.pi) ∧
    (∀ (i : Nat) (h : i + 1 < df.length),
      (swimangleList df)[i]? = some (((df.get ⟨i, by omega⟩).h : ℝ) - fmod (atan2
        (((df.get ⟨i + 1, h⟩).y : ℝ) - ((df.get ⟨i, by omega⟩).y : ℝ))
        (((df.get ⟨i + 1, h⟩).x : ℝ) - ((df.get ⟨i, by omega⟩).x : ℝ))) (2 * Real.pi))) ∧
    (∀ (i : Nat) (h : i + 2 < df.length),
      (accelerationList df)[i]? = some
        (((speedList df).get ⟨i + 1, by rw [speedList_length]; omega⟩ -
          (speedList df).get ⟨i, by rw [speedList_length]; omega⟩) /
         (((df.get ⟨i + 1, by omega⟩).time : ℝ) - ((df.get ⟨i, by omega⟩).time : ℝ)))) ∧
    (speedList straightSamples = [5, 5] ∧ accelerationList straightSamples = [0]) := by
  have hma : ∀ (i : Nat) (h : i + 1 < df.length),
      (movementAngleList df)[i]? = some (fmod (atan2
        (((df.get ⟨i + 1, h⟩).y : ℝ) - ((df.get ⟨i, by omega⟩).y : ℝ))
        (((df.get ⟨i + 1, h⟩).x : ℝ) - ((df.get ⟨i, by omega⟩).x : ℝ))) (2 * Real.pi)) :=
    fun i h => zipWith_tail_getElem? _ df i h
  have hspeed : ∀ (i : Nat) (h : i + 1 < df.length),
      (speedList df)[i]? = some (Real.sqrt
        ((((df.get ⟨i + 1, h⟩).x : ℝ) - ((df.get ⟨i, by omega⟩).x : ℝ)) ^ 2 +
         (((df.get ⟨i + 1, h⟩).y : ℝ) - ((df.get ⟨i, by omega⟩).y : ℝ)) ^ 2) /
        (((df.get ⟨i + 1, h⟩).time : ℝ) - ((df.get ⟨i, by omega⟩).time : ℝ))) :=
    fun i h => zipWith_tail_getElem? _ df i h
  refine ⟨hspeed, hma, ?_, ?_, ?_, ?_⟩
  · intro a ha
    rcases List.mem_iff_get.mp ha with ⟨⟨i, hi⟩, hget⟩
    have hi2 : i + 1 < df.length := by
      have := movementAngleList_length df
      omega
    have h1 := hma i hi2
    rw [List.getElem?_eq_getElem hi] at h1
    have h2 : (movementAngleList df).get ⟨i, hi⟩ = fmod (atan2
        (((df.get ⟨i + 1, hi2⟩).y : ℝ) - ((df.get ⟨i, by omega⟩).y : ℝ))
        (((df.get ⟨i + 1, hi2⟩).x : ℝ) - ((df.get ⟨i, by omega⟩).x : ℝ))) (2 * Real.pi) := by
      rw [List.get_eq_getElem]
      exact Option.some.inj h1
    rw [← hget, h2]
    have := fmod_mem_Ico (atan2
        (((df.get ⟨i + 1, hi2⟩).y : ℝ) - ((df.get ⟨i, by omega⟩).y : ℝ))
        (((df.get ⟨i + 1, hi2⟩).x : ℝ) - ((df.get ⟨i, by omega⟩).x : ℝ))) (2 * Real.pi)
      (by positivity)
    exact ⟨this.1, this.2⟩
  · intro i h
    unfold swimangleList
    have hmalen : i < (movementAngleList df).length := by
      rw [movementAngleList_length]
      omega
    have hlen : i < (List.zipWith (fun s ma => (s.h : ℝ) - ma) df
        (movementAngleList df)).length := by
      rw [List.length_zipWith, movementAngleList_length]
      omega
    rw [List.getElem?_eq_getElem hlen]
    rw [List.getElem_zipWith]
    have h1 := hma i (by omega)
    rw [List.getElem?_eq_getElem hmalen] at h1
    have h2 := Option.some.inj h1
    rw [h2]
    simp [List.get_eq_getElem]
  · intro i h
    unfold accelerationList
    have hsp : (speedList df).length = df.length - 1 := speedList_length df
    have htc : (tChange df).length = df.length - 1 := tChange_length df
    have hlen : i < (List.zipWith (fun p dt => (p.1 - p.2) / dt)
        ((speedList df).tail.zip (speedList df)) (tChange df)).length := by
      rw [List.length_zipWith, List.length_zip, List.length_tail, hsp, htc]
      omega
    rw [List.getElem?_eq_getElem hlen]
    rw [List.getElem_zipWith]
    have hzip : i < ((speedList df).tail.zip (speedList df)).length := by
      rw [List.length_zip, List.length_tail, hsp]
      omega
    rw [List.getElem_zip]
    have htcv := zipWith_tail_getElem? (fun b a => (b.time : ℝ) - (a.time : ℝ)) df i (by omega)
    have htci : i < (tChange df).length := by
      rw [htc]
      omega
    have htcv2 : (tChange df)[i] = ((df.get ⟨i + 1, by omega⟩).time : ℝ) -
        ((df.get ⟨i, by omega⟩).time : ℝ) := by
      have := htcv
      rw [show List.zipWith (fun b a => (b.time : ℝ) - (a.time : ℝ)) df.tail df = tChange df
        from rfl] at this
      rw [List.getElem?_eq_getElem htci] at this
      exact Option.some.inj this
    rw [htcv2]
    rw [List.getElem_tail]
    simp [List.get_eq_getElem]
  · constructor
    · show List.zipWith _ straightSamples.tail straightSamples = [5, 5]
      simp only [straightSamples, List.tail_cons, List.zipWith_cons_cons, List.zipWith_nil_left]
      have h1 : Real.sqrt ((((3 : ℚ) : ℝ) - ((0 : ℚ) : ℝ)) ^ 2 +
          (((4 : ℚ) : ℝ) - ((0 : ℚ) : ℝ)) ^ 2) / (((1 : ℚ) : ℝ) - ((0 : ℚ) : ℝ)) = 5 := by
        push_cast
        rw [show ((3 : ℝ) - 0) ^ 2 + ((4 : ℝ) - 0) ^ 2 = 5 ^ 2 by norm_num]
        rw [Real.sqrt_sq (by norm_num)]
        norm_num
      have h2 : Real.sqrt ((((6 : ℚ) : ℝ) - ((3 : ℚ) : ℝ)) ^ 2 +
          (((8 : ℚ) : ℝ) - ((4 : ℚ) : ℝ)) ^ 2) / (((2 : ℚ) : ℝ) - ((1 : ℚ) : ℝ)) = 5 := by
        push_cast
        rw [show ((6 : ℝ) - 3) ^ 2 + ((8 : ℝ) - 4) ^ 2 = 5 ^ 2 by norm_num]
        rw [Real.sqrt_sq (by norm_num)]
        norm_num
      rw [h1, h2]
    · have hsp : speedList straightSamples = [5, 5] := by
        show List.zipWith _ straightSamples.tail straightSamples = [5, 5]
        simp only [straightSamples, List.tail_cons, List.zipWith_cons_cons, List.zipWith_nil_left]
        have h1 : Real.sqrt ((((3 : ℚ) : ℝ) - ((0 : ℚ) : ℝ)) ^ 2 +
            (((4 : ℚ) : ℝ) - ((0 : ℚ) : ℝ)) ^ 2) / (((1 : ℚ) : ℝ) - ((0 : ℚ) : ℝ)) = 5 := by
          push_cast
          rw [show ((3 : ℝ) - 0) ^ 2 + ((4 : ℝ) - 0) ^ 2 = 5 ^ 2 by norm_num]
          rw [Real.sqrt_sq (by norm_num)]
          norm_num
        have h2 : Real.sqrt ((((6 : ℚ) : ℝ) - ((3 : ℚ) : ℝ)) ^ 2 +
            (((8 : ℚ) : ℝ) - ((4 : ℚ) : ℝ)) ^ 2) / (((2 : ℚ) : ℝ) - ((1 : ℚ) : ℝ)) = 5 := by
          push_cast
          rw [show ((6 : ℝ) - 3) ^ 2 + ((8 : ℝ) - 4) ^ 2 = 5 ^ 2 by norm_num]
          rw [Real.sqrt_sq (by norm_num)]
          norm_num
        rw [h1, h2]
      unfold accelerationList tChange
      rw [hsp]
      simp only [straightSamples, List.tail_cons, List.zipWith_cons_cons, List.zipWith_nil_left,
        List.zip_cons_cons, List.tail_cons, List.zip_nil_left]
      norm_num

/-- C7 witness: the concrete `(0,0)→(3,4)→(6,8)` trajectory derives speeds
`[5, 5]` and acceleration `[0]`. -/
theorem kinematics_derivation_witness :
    speedList straightSamples = [5, 5] ∧ accelerationList straightSamples = [0] :=
  (kinematics_derivation straightSamples).2.2.2.2.2
